import Mathlib

/-!
Verification of the ATS resume-scoring backend.

This file gives a shallow embedding, in Lean 4, of the deterministic core of
the `ats-backend` repository (skill normalization, weighted job-description
skill extraction, weighted comparison, score engines, resume-quality analysis,
the analysis orchestrator with its relevance gate, the improvement simulator,
and the rule-based assistant pipeline: domain validation, intent detection and
the failure-variant routing of `processQuery`), together with theorems that
settle the specification claims about that code.

Modelling conventions:

* JavaScript strings are modelled as lists of characters (`Str`); string
  values flowing through the code keep their exact contents.
* JavaScript numbers are modelled exactly: integers as `Int`/`Nat`, and the
  handful of fractional computations (`0.7 * x + 0.3 * y`, percentages,
  confidence scores) as the exact-fraction type `Q` below, i.e. with exact
  rational arithmetic rather than IEEE-754 doubles.  Every constant that the
  code manipulates (`0.15`, `0.35`, `0.7`, ...) is an exact multiple of
  `1/100`, so double rounding error never changes a comparison made by the
  code on the inputs considered here.
* `Math.round` is round-half-up (`⌊x + 1/2⌋`), as in JavaScript for the
  non-negative values that occur.
* Absent / `null` / non-string JavaScript values are modelled with `Option`.
* All embedded functions are total Lean functions; the JavaScript code under
  consideration is exception-free on well-typed inputs, and totality of the
  embedding is the formal counterpart of that.
-/

namespace ATS

/-- JavaScript strings, modelled as lists of characters. -/
abbrev Str := List Char

/-- Converts a Lean string literal to the character-list model. -/
def S (s : String) : Str := s.data

/-- Whitespace test used by `trim`, `split(/\s+/)` and friends
(the ASCII whitespace characters relevant to this code base). -/
def isWs (c : Char) : Bool :=
  c = ' ' || c = '\t' || c = '\n' || c = '\r' || c = '\x0b' || c = '\x0c'

/-- ASCII lower-casing of one character (JavaScript `toLowerCase` on the
ASCII range, which is all this code base's tables use). -/
def lc (c : Char) : Char :=
  if 65 ≤ c.toNat ∧ c.toNat ≤ 90 then Char.ofNat (c.toNat + 32) else c

/-- JavaScript `String.prototype.toLowerCase`. -/
def lower (s : Str) : Str := s.map lc

/-- Removes trailing whitespace. -/
def trimEnd : Str → Str
  | [] => []
  | c :: cs =>
    let r := trimEnd cs
    if r.isEmpty && isWs c then [] else c :: r

/-- JavaScript `String.prototype.trim`: strip leading and trailing
whitespace. -/
def trim (s : Str) : Str := trimEnd (s.dropWhile isWs)

/-- Tests whether `w` is a prefix of `s` (plain character equality). -/
def litAt : Str → Str → Bool
  | [], _ => true
  | _ :: _, [] => false
  | a :: w, b :: s => a = b && litAt w s

/-- JavaScript `String.prototype.includes`: `hasSub hay needle` is true iff
`needle` occurs contiguously inside `hay`. -/
def hasSub : Str → Str → Bool
  | hay, needle =>
    match hay with
    | [] => needle.isEmpty
    | _ :: t => litAt needle hay || hasSub t needle

/-- JavaScript `\w` character class: ASCII letters, digits and underscore. -/
def isWordChar (c : Char) : Bool := c.isAlphanum || c = '_'

/-- Regex word-boundary `\b` between two adjacent positions whose characters
are `a` and `b` (`none` = outside the string): exactly one side is a word
character. -/
def bdry (a b : Option Char) : Bool :=
  (match a with | some c => isWordChar c | none => false) !=
  (match b with | some c => isWordChar c | none => false)

/-- Does the literal word `w` match at the head of `t` (with `prev` the
character just before that position), with `\b` boundaries on both sides?
This is the semantics of the JavaScript regex `\b<w>\b` anchored at one
position. -/
def wordMatchAt (w : Str) (prev : Option Char) (t : Str) : Bool :=
  litAt w t && bdry prev w.head? && bdry w.getLast? (t.drop w.length).head?

/-- Counts the positions of `t` at which `\b<w>\b` matches, scanning with the
character preceding the current position.  For the word lists used in this
code base, boundary-delimited occurrences of a fixed word never overlap, so
this equals the match count of a global JavaScript regex. -/
def countWordFrom (w : Str) : Option Char → Str → Nat
  | _, [] => 0
  | prev, c :: rest =>
    (if wordMatchAt w prev (c :: rest) then 1 else 0) + countWordFrom w (some c) rest

/-- Number of whole-word matches of `w` in `t` (`text.match(/\b w \b/g)`). -/
def countWord (t w : Str) : Nat := countWordFrom w none t

/-- JavaScript `new RegExp('\\b' + w + '\\b', 'i').test(t)`, with both sides
compared after lower-casing. -/
def testWholeWord (t w : Str) : Bool := 0 < countWord (lower t) (lower w)

/-- Splits a string at every character satisfying `p` (JavaScript
`split(/[...]/)` with a single-character class; empty pieces are kept, as in
JavaScript, and filtered later by the callers). -/
def splitOnPred (p : Char → Bool) : Str → List Str
  | [] => [[]]
  | c :: cs =>
    let r := splitOnPred p cs
    if p c then [] :: r
    else
      match r with
      | [] => [[c]]
      | piece :: rest => (c :: piece) :: rest

/-- The maximal non-whitespace runs of `s` (JavaScript `split(/\s+/)` applied
to a string with no leading whitespace, as all call sites here do). -/
def wordsOf (s : Str) : List Str :=
  (splitOnPred isWs s).filter (fun w => !w.isEmpty)

/-- Exact fractions: the embedding of JavaScript's fractional arithmetic.
Values built by the operations below are kept gcd-normalized with a positive
denominator, so structural equality is value equality, exactly as `===` on
JavaScript numbers. -/
structure Q where
  num : Int
  den : Int
deriving DecidableEq, Repr

/-- Builds the normalized fraction `n / d` (callers never pass `d = 0`). -/
def Q.norm (n d : Int) : Q :=
  if d = 0 then ⟨0, 1⟩ else
  let g : Nat := n.natAbs.gcd d.natAbs
  let sgn : Int := if (0 ≤ n) = (0 < d) then 1 else -1
  ⟨sgn * ((n.natAbs / g : Nat) : Int), ((d.natAbs / g : Nat) : Int)⟩

/-- Embeds an integer as a fraction. -/
def Q.ofInt (n : Int) : Q := ⟨n, 1⟩

/-- Embeds a natural number as a fraction. -/
def Q.ofNat (n : Nat) : Q := ⟨(n : Int), 1⟩

/-- Exact addition. -/
def Q.add (a b : Q) : Q := Q.norm (a.num * b.den + b.num * a.den) (a.den * b.den)

/-- Exact multiplication. -/
def Q.mul (a b : Q) : Q := Q.norm (a.num * b.num) (a.den * b.den)

/-- Exact division (used only with a positive divisor). -/
def Q.div (a b : Q) : Q := Q.norm (a.num * b.den) (a.den * b.num)

/-- Value comparison `a < b` (cross multiplication; denominators of the
fractions built here are always positive). -/
def Q.qlt (a b : Q) : Prop := a.num * b.den < b.num * a.den

/-- Value comparison `a ≤ b`. -/
def Q.qle (a b : Q) : Prop := a.num * b.den ≤ b.num * a.den

instance (a b : Q) : Decidable (a.qlt b) := inferInstanceAs (Decidable (_ < _))

instance (a b : Q) : Decidable (a.qle b) := inferInstanceAs (Decidable (_ ≤ _))

/-- JavaScript `Math.min` on two numbers. -/
def Q.qmin (a b : Q) : Q := if a.qlt b then a else b

/-- JavaScript `Math.max` on two numbers. -/
def Q.qmax (a b : Q) : Q := if a.qlt b then b else a

/-- JavaScript `Math.round` (round half up) of an exact fraction with a
positive denominator: `⌊q + 1/2⌋ = ⌊(2 num + den) / (2 den)⌋`. -/
def jsRound (q : Q) : Int := Int.fdiv (2 * q.num + q.den) (2 * q.den)

/-- `Math.round(x * 100) / 100`: rounding to two decimal places, as the
improvement simulator does. -/
def round2 (q : Q) : Q := Q.norm (jsRound (q.mul (Q.ofInt 100))) 100

/-- Decimal digits of an integer (JavaScript number-to-string interpolation
for the integral values interpolated by this code base). -/
def intToStr (i : Int) : Str := (toString i).data

/-- Decimal digits of a natural number. -/
def natToStr (n : Nat) : Str := (toString n).data

end ATS

namespace ATS

/-- The alias table of `backend/ats/normalize.utils.js` (`SKILL_ALIASES`),
as an association list from lower-cased alias to canonical name, in source
order. -/
def SKILL_ALIASES : List (Str × Str) := [
  (S "js", S "JavaScript"), (S "javascript", S "JavaScript"), (S "ecmascript", S "JavaScript"),
  (S "ts", S "TypeScript"), (S "typescript", S "TypeScript"),
  (S "node", S "Node.js"), (S "nodejs", S "Node.js"), (S "node.js", S "Node.js"),
  (S "react", S "React"), (S "reactjs", S "React"), (S "react.js", S "React"),
  (S "vue", S "Vue.js"), (S "vuejs", S "Vue.js"), (S "vue.js", S "Vue.js"),
  (S "angular", S "Angular"), (S "angularjs", S "Angular"), (S "angular.js", S "Angular"),
  (S "express", S "Express.js"), (S "expressjs", S "Express.js"), (S "express.js", S "Express.js"),
  (S "next", S "Next.js"), (S "nextjs", S "Next.js"), (S "next.js", S "Next.js"),
  (S "mongo", S "MongoDB"), (S "mongodb", S "MongoDB"), (S "mongo db", S "MongoDB"),
  (S "postgres", S "PostgreSQL"), (S "postgresql", S "PostgreSQL"), (S "psql", S "PostgreSQL"),
  (S "mysql", S "MySQL"), (S "my sql", S "MySQL"),
  (S "python", S "Python"), (S "py", S "Python"),
  (S "java", S "Java"),
  (S "c++", S "C++"), (S "cpp", S "C++"), (S "cplusplus", S "C++"),
  (S "c#", S "C#"), (S "csharp", S "C#"), (S "c sharp", S "C#"),
  (S "docker", S "Docker"), (S "dockerfile", S "Docker"),
  (S "kubernetes", S "Kubernetes"), (S "k8s", S "Kubernetes"), (S "kube", S "Kubernetes"),
  (S "aws", S "AWS"), (S "amazon web services", S "AWS"),
  (S "azure", S "Azure"), (S "microsoft azure", S "Azure"),
  (S "gcp", S "Google Cloud"), (S "google cloud", S "Google Cloud"),
  (S "google cloud platform", S "Google Cloud"),
  (S "git", S "Git"), (S "github", S "GitHub"), (S "gitlab", S "GitLab"),
  (S "html", S "HTML"), (S "html5", S "HTML"),
  (S "css", S "CSS"), (S "css3", S "CSS"),
  (S "sql", S "SQL"), (S "structured query language", S "SQL"),
  (S "nosql", S "NoSQL"), (S "no sql", S "NoSQL"),
  (S "rest", S "REST API"), (S "rest api", S "REST API"),
  (S "restful", S "RESTful"), (S "restful api", S "REST API"),
  (S "graphql", S "GraphQL"), (S "graph ql", S "GraphQL"),
  (S "ci/cd", S "CI/CD"), (S "cicd", S "CI/CD"), (S "continuous integration", S "CI/CD"),
  (S "ml", S "Machine Learning"), (S "machine learning", S "Machine Learning"),
  (S "ai", S "AI"), (S "artificial intelligence", S "Artificial Intelligence"),
  (S "redux", S "Redux"), (S "redux toolkit", S "Redux"),
  (S "tailwind", S "Tailwind CSS"), (S "tailwindcss", S "Tailwind CSS"),
  (S "tailwind css", S "Tailwind CSS")]

/-- Lookup of a lower-cased key in the alias table (`SKILL_ALIASES[lowerSkill]`,
which is `undefined` exactly when the key is absent). -/
def aliasLookup (key : Str) : Option Str :=
  match SKILL_ALIASES.find? (fun p => p.1 = key) with
  | some p => some p.2
  | none => none

/-- The canonical form of one raw skill token as computed inside
`normalizeSkills`: trim, look the lower-cased form up in the alias table, and
fall back to the trimmed original (`SKILL_ALIASES[lowerSkill] || trimmedSkill`). -/
def canonOf (s : Str) : Str :=
  match aliasLookup (lower (trim s)) with
  | some c => c
  | none => trim s

/-- The dedup-and-collect loop of `normalizeSkills`: `seen` is the set of
lower-cased canonical names already emitted. -/
def normLoop : List Str → List Str → List Str
  | _, [] => []
  | seen, s :: rest =>
    let c := canonOf s
    let key := lower c
    if key ∈ seen then normLoop seen rest
    else c :: normLoop (key :: seen) rest

/-- The entry filter of `normalizeSkills`: keep only string entries whose trim
is non-empty (`typeof skill === 'string' && skill.trim() !== ''`; `none`
models `null` / `undefined` / non-string entries). -/
def validEntry : Option Str → Option Str
  | none => none
  | some s => if trim s = [] then none else some s

/-- `normalizeSkills` of `backend/ats/normalize.utils.js`: filter invalid
entries, resolve aliases, and deduplicate case-insensitively, preserving
first-seen order. -/
def normalizeSkills (xs : List (Option Str)) : List Str :=
  normLoop [] (xs.filterMap validEntry)

end ATS

namespace ATS

/-- The head of a `dropWhile` result never satisfies the dropped predicate. -/
theorem head_dropWhile_not {α : Type} {p : α → Bool} :
    ∀ (l : List α) (c : α), (l.dropWhile p).head? = some c → p c = false := by
  intro l
  induction l with
  | nil => intro c h; simp [List.dropWhile] at h
  | cons a t ih =>
    intro c h
    by_cases hp : p a = true
    · rw [List.dropWhile_cons_of_pos hp] at h
      exact ih c h
    · rw [List.dropWhile_cons_of_neg hp] at h
      simp only [List.head?_cons, Option.some.injEq] at h
      subst h
      simpa using hp

/-- `dropWhile` is the identity when the head does not satisfy the predicate. -/
theorem dropWhile_of_head_not {α : Type} {p : α → Bool} :
    ∀ (l : List α) (c : α), l.head? = some c → p c = false → l.dropWhile p = l := by
  intro l c h hc
  cases l with
  | nil => simp at h
  | cons a t =>
    simp only [List.head?_cons, Option.some.injEq] at h
    subst h
    exact List.dropWhile_cons_of_neg (by simp [hc])

/-- Removing trailing whitespace is idempotent. -/
theorem trimEnd_idem : ∀ s : Str, trimEnd (trimEnd s) = trimEnd s := by
  intro s
  induction s with
  | nil => rfl
  | cons c cs ih =>
    simp only [trimEnd]
    by_cases h : ((trimEnd cs).isEmpty && isWs c) = true
    · rw [if_pos h]
      rfl
    · rw [if_neg h]
      show trimEnd (c :: trimEnd cs) = c :: trimEnd cs
      simp only [trimEnd, ih]
      rw [if_neg h]

/-- A non-empty `trimEnd` result keeps the original head. -/
theorem trimEnd_head : ∀ (s : Str) (c : Char) (r : Str),
    trimEnd s = c :: r → s.head? = some c := by
  intro s c r h
  cases s with
  | nil => simp [trimEnd] at h
  | cons a t =>
    simp only [trimEnd] at h
    split at h
    · cases h
    · simp only [List.cons.injEq] at h
      simp [h.1]

/-- JavaScript `trim` is idempotent. -/
theorem trim_idem (s : Str) : trim (trim s) = trim s := by
  unfold trim
  cases hE : trimEnd (s.dropWhile isWs) with
  | nil => simp [List.dropWhile, trimEnd]
  | cons c r =>
    have hhead : (s.dropWhile isWs).head? = some c := trimEnd_head _ _ _ hE
    have hc : isWs c = false := head_dropWhile_not _ _ hhead
    rw [← hE, dropWhile_of_head_not (trimEnd (s.dropWhile isWs)) c (by rw [hE]; rfl) hc]
    exact trimEnd_idem _

/-- Every canonical name in the alias table is a fixed point of one-token
normalization, is trimmed, and is non-empty (checked by evaluation). -/
theorem aliasTableFixed :
    SKILL_ALIASES.all
      (fun p => decide (canonOf p.2 = p.2) && decide (trim p.2 = p.2) && !p.2.isEmpty) = true := by
  decide

/-- One-token normalization is idempotent on tokens with a non-empty trim, and
its result is a trimmed non-empty token. -/
theorem canonOf_fix (s : Str) (hs : trim s ≠ []) :
    canonOf (canonOf s) = canonOf s ∧ trim (canonOf s) = canonOf s ∧ canonOf s ≠ [] := by
  cases h : aliasLookup (lower (trim s)) with
  | some c =>
    have hcanon : canonOf s = c := by simp [canonOf, h]
    have hmem : ∃ p ∈ SKILL_ALIASES, p.2 = c := by
      unfold aliasLookup at h
      cases hf : SKILL_ALIASES.find? (fun p => p.1 = lower (trim s)) with
      | none => rw [hf] at h; cases h
      | some p =>
        rw [hf] at h
        refine ⟨p, List.mem_of_find?_eq_some hf, ?_⟩
        simpa using h
    obtain ⟨p, hp, hpc⟩ := hmem
    have hall := List.all_eq_true.mp aliasTableFixed p hp
    simp only [Bool.and_eq_true, decide_eq_true_eq, Bool.not_eq_true'] at hall
    obtain ⟨⟨hfix, htrim⟩, hne⟩ := hall
    have hne2 : p.2 ≠ [] := by
      cases hq : p.2 with
      | nil => rw [hq] at hne; simp at hne
      | cons a b => simp [hq]
    rw [hcanon, ← hpc]
    exact ⟨hfix, htrim, hne2⟩
  | none =>
    have hcanon : canonOf s = trim s := by simp [canonOf, h]
    rw [hcanon]
    refine ⟨?_, trim_idem s, hs⟩
    have h2 : aliasLookup (lower (trim (trim s))) = none := by rw [trim_idem s]; exact h
    simp [canonOf, h, h2, trim_idem s]

/-- Every element emitted by the normalization loop is the canonical form of
some input token. -/
theorem normLoop_mem : ∀ (vs seen : List Str) (y : Str),
    y ∈ normLoop seen vs → ∃ v ∈ vs, y = canonOf v := by
  intro vs
  induction vs with
  | nil => intro seen y h; simp [normLoop] at h
  | cons s rest ih =>
    intro seen y h
    simp only [normLoop] at h
    split at h
    · obtain ⟨v, hv, hy⟩ := ih _ _ h
      exact ⟨v, List.mem_cons_of_mem _ hv, hy⟩
    · rcases List.mem_cons.mp h with h1 | h2
      · exact ⟨s, List.mem_cons_self _ _, h1⟩
      · obtain ⟨v, hv, hy⟩ := ih _ _ h2
        exact ⟨v, List.mem_cons_of_mem _ hv, hy⟩

/-- The lower-cased keys of the loop's output are distinct and disjoint from
the already-seen key set. -/
theorem normLoop_keys : ∀ (vs seen : List Str),
    ((normLoop seen vs).map lower).Nodup ∧
      ∀ k ∈ (normLoop seen vs).map lower, k ∉ seen := by
  intro vs
  induction vs with
  | nil => intro seen; simp [normLoop]
  | cons s rest ih =>
    intro seen
    simp only [normLoop]
    split
    · exact ih seen
    · next hnotin =>
      constructor
      · simp only [List.map_cons, List.nodup_cons]
        constructor
        · intro hmem
          exact (ih (lower (canonOf s) :: seen)).2 _ hmem (List.mem_cons_self _ _)
        · exact (ih (lower (canonOf s) :: seen)).1
      · intro k hk
        simp only [List.map_cons, List.mem_cons] at hk
        rcases hk with hk | hk
        · rw [hk]; exact hnotin
        · intro hkseen
          exact (ih (lower (canonOf s) :: seen)).2 _ hk (List.mem_cons_of_mem _ hkseen)

/-- The loop is the identity on a list of canonical-fixed tokens with distinct
keys none of which were seen. -/
theorem normLoop_id : ∀ (ys seen : List Str),
    (∀ y ∈ ys, canonOf y = y) → (ys.map lower).Nodup →
    (∀ y ∈ ys, lower y ∉ seen) → normLoop seen ys = ys := by
  intro ys
  induction ys with
  | nil => intro seen _ _ _; rfl
  | cons y rest ih =>
    intro seen hcan hnodup hseen
    simp only [normLoop]
    have hc : canonOf y = y := hcan y (List.mem_cons_self _ _)
    rw [hc, if_neg (hseen y (List.mem_cons_self _ _))]
    congr 1
    apply ih
    · intro z hz; exact hcan z (List.mem_cons_of_mem _ hz)
    · simp only [List.map_cons, List.nodup_cons] at hnodup
      exact hnodup.2
    · intro z hz
      simp only [List.mem_cons]
      push_neg
      constructor
      · intro heq
        simp only [List.map_cons, List.nodup_cons] at hnodup
        exact hnodup.1 (heq ▸ List.mem_map_of_mem lower hz)
      · exact hseen z (List.mem_cons_of_mem _ hz)

/-- The validity filter keeps a list of tokens with non-empty trim unchanged. -/
theorem filterMap_validEntry_id : ∀ ys : List Str, (∀ y ∈ ys, trim y ≠ []) →
    (ys.map some).filterMap validEntry = ys := by
  intro ys
  induction ys with
  | nil => intro _; rfl
  | cons y rest ih =>
    intro h
    simp only [List.map_cons, List.filterMap_cons]
    have hy : trim y ≠ [] := h y (List.mem_cons_self _ _)
    simp only [validEntry, if_neg hy]
    rw [ih (fun z hz => h z (List.mem_cons_of_mem _ hz))]

/-- Claim C8: `normalizeSkills` is idempotent — alias resolution followed by
case-insensitive deduplication maps its own output to itself, for every input
sequence (including sequences containing null, blank, or non-string entries,
which are modelled by `none` and blank strings). -/
theorem normalizeSkills_idempotent (xs : List (Option Str)) :
    normalizeSkills ((normalizeSkills xs).map some) = normalizeSkills xs := by
  unfold normalizeSkills
  have hvalid : ∀ v ∈ xs.filterMap validEntry, trim v ≠ [] := by
    intro v hv
    obtain ⟨o, _, hval⟩ := List.mem_filterMap.mp hv
    cases o with
    | none => simp [validEntry] at hval
    | some s =>
      by_cases hts : trim s = []
      · simp [validEntry, hts] at hval
      · simp only [validEntry, if_neg hts, Option.some.injEq] at hval
        rw [← hval]
        exact hts
  have hmemfacts : ∀ y ∈ normLoop [] (xs.filterMap validEntry),
      canonOf y = y ∧ trim y = y ∧ y ≠ [] := by
    intro y hy
    obtain ⟨v, hv, hyv⟩ := normLoop_mem _ [] y hy
    have hfix := canonOf_fix v (hvalid v hv)
    rw [hyv]
    exact hfix
  rw [filterMap_validEntry_id _ (fun y hy => by
    obtain ⟨_, ht, hne⟩ := hmemfacts y hy
    rw [ht]
    exact hne)]
  exact normLoop_id _ [] (fun y hy => (hmemfacts y hy).1)
    (normLoop_keys _ []).1 (fun y _ => List.not_mem_nil _)

end ATS
namespace ATS

/-- `normalizeSkill` of `backend/ats/compareWeighted.utils.js`: lower-case and
trim (non-strings map to the empty string at the call sites modelled here). -/
def normalizeSkill (s : Str) : Str := trim (lower s)

/-- `normalizeSkillsArray`: keep string entries with a non-empty trim, and trim
them. -/
def normalizeSkillsArray (xs : List (Option Str)) : List Str :=
  (xs.filterMap validEntry).map trim

/-- The `ComparisonResult` produced by `compareWeightedSkills`. -/
structure WeightedComparison where
  matchedCoreSkills : List Str
  missingCoreSkills : List Str
  matchedOptionalSkills : List Str
  missingOptionalSkills : List Str
deriving DecidableEq, Repr

/-- The loop of `compareSkillSets`: walk the requirement list, push each
requirement into `matched` or `missing` according to membership of its
normalized form in the candidate set, deduplicating each output list with its
own set of already-added normalized keys. -/
def cssLoop (cand : List Str) : List Str → List Str → List Str → List Str × List Str
  | _, _, [] => ([], [])
  | addedM, addedX, skill :: rest =>
    let n := normalizeSkill skill
    if n ∈ cand then
      if n ∈ addedM then cssLoop cand addedM addedX rest
      else
        let r := cssLoop cand (n :: addedM) addedX rest
        (skill :: r.1, r.2)
    else
      if n ∈ addedX then cssLoop cand addedM addedX rest
      else
        let r := cssLoop cand addedM (n :: addedX) rest
        (r.1, skill :: r.2)

/-- `compareSkillSets(candidateSet, requiredSkills)`: matched and missing
requirement lists. -/
def compareSkillSets (candidateSet requiredSkills : List Str) : List Str × List Str :=
  cssLoop candidateSet [] [] requiredSkills

/-- `compareWeightedSkills` of `backend/ats/compareWeighted.utils.js`. -/
def compareWeightedSkills (resumeSkills coreSkills optionalSkills : List (Option Str)) :
    WeightedComparison :=
  let normalizedResumeSkills := normalizeSkillsArray resumeSkills
  let normalizedCoreSkills := normalizeSkillsArray coreSkills
  let normalizedOptionalSkills := normalizeSkillsArray optionalSkills
  let resumeSkillSet := normalizedResumeSkills.map normalizeSkill
  let coreComparison := compareSkillSets resumeSkillSet normalizedCoreSkills
  let optionalComparison := compareSkillSets resumeSkillSet normalizedOptionalSkills
  ⟨coreComparison.1, coreComparison.2, optionalComparison.1, optionalComparison.2⟩

/-- Deduplication of a requirement list by normalized key, keeping first
occurrences in order (the specification's "deduplicated requirement set"). -/
def dedupKeyLoop : List Str → List Str → List Str
  | _, [] => []
  | seen, s :: rest =>
    let k := normalizeSkill s
    if k ∈ seen then dedupKeyLoop seen rest
    else s :: dedupKeyLoop (k :: seen) rest

/-- Deduplication by normalized key starting from an empty seen set. -/
def dedupKey (l : List Str) : List Str := dedupKeyLoop [] l

/-- The comparison loop computes exactly the membership-split of the
key-deduplicated requirement list. -/
theorem cssLoop_filter (cand : List Str) : ∀ (reqs seenM seenX seenD : List Str),
    (∀ k, k ∈ cand → (k ∈ seenM ↔ k ∈ seenD)) →
    (∀ k, k ∉ cand → (k ∈ seenX ↔ k ∈ seenD)) →
    (cssLoop cand seenM seenX reqs).1
        = (dedupKeyLoop seenD reqs).filter (fun s => decide (normalizeSkill s ∈ cand)) ∧
      (cssLoop cand seenM seenX reqs).2
        = (dedupKeyLoop seenD reqs).filter (fun s => !decide (normalizeSkill s ∈ cand)) := by
  intro reqs
  induction reqs with
  | nil => intro seenM seenX seenD _ _; simp [cssLoop, dedupKeyLoop]
  | cons s rest ih =>
    intro seenM seenX seenD hM hX
    simp only [cssLoop, dedupKeyLoop]
    by_cases hc : normalizeSkill s ∈ cand
    · rw [if_pos hc]
      by_cases hm : normalizeSkill s ∈ seenM
      · have hd : normalizeSkill s ∈ seenD := (hM _ hc).mp hm
        rw [if_pos hm, if_pos hd]
        exact ih seenM seenX seenD hM hX
      · have hd : normalizeSkill s ∉ seenD := fun hcon => hm ((hM _ hc).mpr hcon)
        rw [if_neg hm, if_neg hd]
        have hinv1 : ∀ k, k ∈ cand →
            (k ∈ normalizeSkill s :: seenM ↔ k ∈ normalizeSkill s :: seenD) := by
          intro k hk
          simp only [List.mem_cons]
          rw [hM k hk]
        have hinv2 : ∀ k, k ∉ cand → (k ∈ seenX ↔ k ∈ normalizeSkill s :: seenD) := by
          intro k hk
          simp only [List.mem_cons]
          constructor
          · intro h; exact Or.inr ((hX k hk).mp h)
          · intro h
            rcases h with h | h
            · exact absurd (h ▸ hc) hk
            · exact (hX k hk).mpr h
        obtain ⟨ih1, ih2⟩ := ih (normalizeSkill s :: seenM) seenX (normalizeSkill s :: seenD) hinv1 hinv2
        constructor
        · simp only [List.filter_cons, decide_eq_true_eq, hc, if_true]
          simpa using congrArg (List.cons s) ih1
        · simp only [List.filter_cons, decide_eq_true_eq, hc, if_true]
          simpa using ih2
    · rw [if_neg hc]
      by_cases hx : normalizeSkill s ∈ seenX
      · have hd : normalizeSkill s ∈ seenD := (hX _ hc).mp hx
        rw [if_pos hx, if_pos hd]
        exact ih seenM seenX seenD hM hX
      · have hd : normalizeSkill s ∉ seenD := fun hcon => hx ((hX _ hc).mpr hcon)
        rw [if_neg hx, if_neg hd]
        have hinv1 : ∀ k, k ∈ cand → (k ∈ seenM ↔ k ∈ normalizeSkill s :: seenD) := by
          intro k hk
          simp only [List.mem_cons]
          constructor
          · intro h; exact Or.inr ((hM k hk).mp h)
          · intro h
            rcases h with h | h
            · exact absurd hk (h ▸ hc)
            · exact (hM k hk).mpr h
        have hinv2 : ∀ k, k ∉ cand →
            (k ∈ normalizeSkill s :: seenX ↔ k ∈ normalizeSkill s :: seenD) := by
          intro k hk
          simp only [List.mem_cons]
          rw [hX k hk]
        obtain ⟨ih1, ih2⟩ := ih seenM (normalizeSkill s :: seenX) (normalizeSkill s :: seenD) hinv1 hinv2
        constructor
        · simp only [List.filter_cons, Bool.not_eq_true, decide_eq_true_eq, hc]
          simpa using ih1
        · simp only [List.filter_cons, Bool.not_eq_true, decide_eq_true_eq, hc]
          simpa using congrArg (List.cons s) ih2

end ATS
namespace ATS

/-- Claim C7: for every `resumeSkills`, `coreSkills` and `optionalSkills`
input, the `ComparisonResult` of `compareWeightedSkills` satisfies:
`matchedCoreSkills` and `missingCoreSkills` are, in order, the elements of the
key-deduplicated core requirement list whose normalized (lower-cased, trimmed)
form is / is not in the resume skill set; hence they are disjoint under
case-insensitive normalization and their merge is a permutation of the
deduplicated core requirement set, in requirement-list order; and the same
holds for the optional tier. -/
theorem compareWeightedSkills_partition
    (resumeSkills coreSkills optionalSkills : List (Option Str)) :
    let r := compareWeightedSkills resumeSkills coreSkills optionalSkills
    let cand := (normalizeSkillsArray resumeSkills).map normalizeSkill
    let coreReq := dedupKey (normalizeSkillsArray coreSkills)
    let optReq := dedupKey (normalizeSkillsArray optionalSkills)
    r.matchedCoreSkills = coreReq.filter (fun s => decide (normalizeSkill s ∈ cand)) ∧
    r.missingCoreSkills = coreReq.filter (fun s => !decide (normalizeSkill s ∈ cand)) ∧
    (∀ s ∈ r.matchedCoreSkills, ∀ t ∈ r.missingCoreSkills,
      normalizeSkill s ≠ normalizeSkill t) ∧
    (r.matchedCoreSkills ++ r.missingCoreSkills).Perm coreReq ∧
    r.matchedOptionalSkills = optReq.filter (fun s => decide (normalizeSkill s ∈ cand)) ∧
    r.missingOptionalSkills = optReq.filter (fun s => !decide (normalizeSkill s ∈ cand)) ∧
    (∀ s ∈ r.matchedOptionalSkills, ∀ t ∈ r.missingOptionalSkills,
      normalizeSkill s ≠ normalizeSkill t) ∧
    (r.matchedOptionalSkills ++ r.missingOptionalSkills).Perm optReq := by
  intro r cand coreReq optReq
  have hcore := cssLoop_filter cand (normalizeSkillsArray coreSkills) [] [] []
    (fun k _ => Iff.rfl) (fun k _ => Iff.rfl)
  have hopt := cssLoop_filter cand (normalizeSkillsArray optionalSkills) [] [] []
    (fun k _ => Iff.rfl) (fun k _ => Iff.rfl)
  have hrm : r.matchedCoreSkills = coreReq.filter (fun s => decide (normalizeSkill s ∈ cand)) :=
    hcore.1
  have hrx : r.missingCoreSkills = coreReq.filter (fun s => !decide (normalizeSkill s ∈ cand)) :=
    hcore.2
  have hom : r.matchedOptionalSkills = optReq.filter (fun s => decide (normalizeSkill s ∈ cand)) :=
    hopt.1
  have hox : r.missingOptionalSkills = optReq.filter (fun s => !decide (normalizeSkill s ∈ cand)) :=
    hopt.2
  refine ⟨hrm, hrx, ?_, ?_, hom, hox, ?_, ?_⟩
  · intro s hs t ht
    rw [hrm] at hs
    rw [hrx] at ht
    have hsp := List.of_mem_filter hs
    have htp := List.of_mem_filter ht
    simp only [decide_eq_true_eq] at hsp
    simp only [Bool.not_eq_true', decide_eq_false_iff_not] at htp
    intro heq
    exact htp (heq ▸ hsp)
  · rw [hrm, hrx]
    exact List.filter_append_perm _ coreReq
  · intro s hs t ht
    rw [hom] at hs
    rw [hox] at ht
    have hsp := List.of_mem_filter hs
    have htp := List.of_mem_filter ht
    simp only [decide_eq_true_eq] at hsp
    simp only [Bool.not_eq_true', decide_eq_false_iff_not] at htp
    intro heq
    exact htp (heq ▸ hsp)
  · rw [hom, hox]
    exact List.filter_append_perm _ optReq

/-- Witness for C7, on the specification's own scenario:
`compareWeightedSkills(['JavaScript','React'], ['JavaScript','React','Node.js'], [])`
yields matched core `['JavaScript','React']`, missing core `['Node.js']` and
empty optional lists, and the partition theorem instantiates there. -/
theorem compareWeightedSkills_partition_witness :
    (compareWeightedSkills [some (S "JavaScript"), some (S "React")]
        [some (S "JavaScript"), some (S "React"), some (S "Node.js")] []).matchedCoreSkills
      = [S "JavaScript", S "React"] ∧
    (compareWeightedSkills [some (S "JavaScript"), some (S "React")]
        [some (S "JavaScript"), some (S "React"), some (S "Node.js")] []).missingCoreSkills
      = [S "Node.js"] ∧
    ((compareWeightedSkills [some (S "JavaScript"), some (S "React")]
        [some (S "JavaScript"), some (S "React"), some (S "Node.js")] []).matchedCoreSkills ++
      (compareWeightedSkills [some (S "JavaScript"), some (S "React")]
        [some (S "JavaScript"), some (S "React"), some (S "Node.js")] []).missingCoreSkills).Perm
      (dedupKey (normalizeSkillsArray
        [some (S "JavaScript"), some (S "React"), some (S "Node.js")])) := by
  refine ⟨by decide, by decide, ?_⟩
  exact (compareWeightedSkills_partition [some (S "JavaScript"), some (S "React")]
    [some (S "JavaScript"), some (S "React"), some (S "Node.js")] []).2.2.2.1

end ATS
namespace ATS

/-- The `ScoreResult` of `calculateWeightedATSScore`. -/
structure ScoreResult where
  atsScore : Int
  explanation : Str
deriving DecidableEq, Repr

/-- `generateExplanation` of `backend/ats/scoreWeighted.utils.js`: the overall
band, per-tier breakdowns, and a recommendation sentence. -/
def generateExplanation (atsScore : Int) (matchedCore totalCore matchedOptional totalOptional : Nat)
    (coreScore optionalScore : Q) : Str :=
  let band :=
    if 80 ≤ atsScore then S "Excellent match! "
    else if 60 ≤ atsScore then S "Good match! "
    else if 40 ≤ atsScore then S "Moderate match. "
    else if 0 < atsScore then S "Low match. "
    else S "No match found. "
  let coreBreakdown :=
    if 0 < totalCore then
      S "You matched " ++ natToStr matchedCore ++ S " out of " ++ natToStr totalCore ++
        S " core/required skills (" ++ intToStr (jsRound coreScore) ++ S "%). " ++
      (if (Q.ofInt 80).qle coreScore then S "Your core skills are very strong. "
       else if (Q.ofInt 60).qle coreScore then S "Your core skills are good but could be improved. "
       else if (Q.ofInt 0).qlt coreScore then S "You are missing several critical core skills. "
       else S "You do not possess the required core skills. ")
    else []
  let optionalBreakdown :=
    if 0 < totalOptional then
      S "You matched " ++ natToStr matchedOptional ++ S " out of " ++ natToStr totalOptional ++
        S " optional/preferred skills (" ++ intToStr (jsRound optionalScore) ++ S "%). " ++
      (if (Q.ofInt 80).qle optionalScore then S "Great bonus skills! "
       else if (Q.ofInt 50).qle optionalScore then S "Good additional skills. "
       else if (Q.ofInt 0).qlt optionalScore then S "Some bonus skills present. "
       else [])
    else []
  let recommendation :=
    if 70 ≤ atsScore then S "You are a strong candidate for this position."
    else if 50 ≤ atsScore then
      S "Consider highlighting relevant experience or acquiring missing skills."
    else if 0 < atsScore then
      S "Significant skill development may be needed for this role."
    else S "This position may not align with your current skill set."
  band ++ coreBreakdown ++ optionalBreakdown ++ recommendation

/-- `totalCoreSkills` computed by `calculateWeightedATSScore`. -/
def totalCoreOf (wc : WeightedComparison) : Nat :=
  wc.matchedCoreSkills.length + wc.missingCoreSkills.length

/-- `totalOptionalSkills` computed by `calculateWeightedATSScore`. -/
def totalOptionalOf (wc : WeightedComparison) : Nat :=
  wc.matchedOptionalSkills.length + wc.missingOptionalSkills.length

/-- The unrounded core-tier percentage (`matched/total*100`, `0` when the tier
is empty), as computed by `calculateWeightedATSScore`. -/
def coreScoreOf (wc : WeightedComparison) : Q :=
  if 0 < totalCoreOf wc then
    ((Q.ofNat wc.matchedCoreSkills.length).div (Q.ofNat (totalCoreOf wc))).mul (Q.ofInt 100)
  else Q.ofInt 0

/-- The unrounded optional-tier percentage. -/
def optionalScoreOf (wc : WeightedComparison) : Q :=
  if 0 < totalOptionalOf wc then
    ((Q.ofNat wc.matchedOptionalSkills.length).div (Q.ofNat (totalOptionalOf wc))).mul
      (Q.ofInt 100)
  else Q.ofInt 0

/-- `calculateWeightedATSScore` of `backend/ats/scoreWeighted.utils.js`.  The
input-shape guards of the source (non-object input, non-array fields) are
vacuous on the `WeightedComparison` type and are therefore not represented. -/
def calculateWeightedATSScore (wc : WeightedComparison) : ScoreResult :=
  if totalCoreOf wc = 0 ∧ totalOptionalOf wc = 0 then
    ⟨0, S "No skills found in the job description to evaluate against."⟩
  else
    let coreWeight : Q := if totalCoreOf wc = 0 then Q.ofInt 0
      else if totalOptionalOf wc = 0 then Q.ofInt 1 else Q.norm 7 10
    let optionalWeight : Q := if totalCoreOf wc = 0 then Q.ofInt 1
      else if totalOptionalOf wc = 0 then Q.ofInt 0 else Q.norm 3 10
    let atsScore :=
      jsRound (((coreScoreOf wc).mul coreWeight).add ((optionalScoreOf wc).mul optionalWeight))
    ⟨atsScore, generateExplanation atsScore wc.matchedCoreSkills.length (totalCoreOf wc)
      wc.matchedOptionalSkills.length (totalOptionalOf wc) (coreScoreOf wc) (optionalScoreOf wc)⟩

/-- Claim C4: for every `ComparisonResult` input, `calculateWeightedATSScore`
returns score 0 with the "no skills found" explanation when both tiers are
empty; the single present tier weighted 100% (weights 1 and 0) when exactly
one tier is non-empty; and otherwise `round(coreScore*0.7 + optionalScore*0.3)`
— where each tier score is `matched/total*100` (0 for an empty tier) and the
single round-half-up rounding `jsRound` is applied once, at the end. -/
theorem calculateWeightedATSScore_spec (wc : WeightedComparison) :
    (totalCoreOf wc = 0 ∧ totalOptionalOf wc = 0 →
      (calculateWeightedATSScore wc).atsScore = 0 ∧
        (calculateWeightedATSScore wc).explanation
          = S "No skills found in the job description to evaluate against.") ∧
    (totalCoreOf wc = 0 → totalOptionalOf wc ≠ 0 →
      (calculateWeightedATSScore wc).atsScore
        = jsRound (((coreScoreOf wc).mul (Q.ofInt 0)).add
            ((optionalScoreOf wc).mul (Q.ofInt 1)))) ∧
    (totalCoreOf wc ≠ 0 → totalOptionalOf wc = 0 →
      (calculateWeightedATSScore wc).atsScore
        = jsRound (((coreScoreOf wc).mul (Q.ofInt 1)).add
            ((optionalScoreOf wc).mul (Q.ofInt 0)))) ∧
    (totalCoreOf wc ≠ 0 → totalOptionalOf wc ≠ 0 →
      (calculateWeightedATSScore wc).atsScore
        = jsRound (((coreScoreOf wc).mul (Q.norm 7 10)).add
            ((optionalScoreOf wc).mul (Q.norm 3 10)))) := by
  refine ⟨?_, ?_, ?_, ?_⟩
  · intro h
    unfold calculateWeightedATSScore
    rw [if_pos h]
    exact ⟨rfl, rfl⟩
  · intro h1 h2
    unfold calculateWeightedATSScore
    rw [if_neg (fun hc => h2 hc.2)]
    simp only [if_pos h1]
  · intro h1 h2
    unfold calculateWeightedATSScore
    rw [if_neg (fun hc => h1 hc.1)]
    simp only [if_neg h1, if_pos h2]
  · intro h1 h2
    unfold calculateWeightedATSScore
    rw [if_neg (fun hc => h1 hc.1)]
    simp only [if_neg h1, if_neg h2]

/-- Witness for C4, on the specification's own scenario: two of four core
matched and one of two optional matched gives `0.5*70 + 0.5*30 = 50`, and the
theorem's cases instantiate on concrete comparisons. -/
theorem calculateWeightedATSScore_spec_witness :
    (calculateWeightedATSScore ⟨[S "JavaScript", S "React"], [S "Node.js", S "TypeScript"],
      [S "Docker"], [S "AWS"]⟩).atsScore = 50 ∧
    (calculateWeightedATSScore ⟨[], [], [], []⟩).atsScore = 0 ∧
    (calculateWeightedATSScore ⟨[], [], [S "Docker"], [S "AWS"]⟩).atsScore = 50 := by
  refine ⟨?_, ?_, ?_⟩
  · have h := (calculateWeightedATSScore_spec ⟨[S "JavaScript", S "React"],
      [S "Node.js", S "TypeScript"], [S "Docker"], [S "AWS"]⟩).2.2.2 (by decide) (by decide)
    rw [h]
    decide
  · exact ((calculateWeightedATSScore_spec ⟨[], [], [], []⟩).1 (by decide)).1
  · have h := (calculateWeightedATSScore_spec ⟨[], [], [S "Docker"],
      [S "AWS"]⟩).2.1 (by decide) (by decide)
    rw [h]
    decide

end ATS
namespace ATS

/-- `SKILL_LIST` of `backend/ats/jdWeight.utils.js`, in source order. -/
def SKILL_LIST : List Str := [
  S "JavaScript", S "Python", S "Java", S "C++", S "C#", S "TypeScript", S "PHP", S "Ruby",
  S "Rust", S "Swift", S "Kotlin", S "Scala", S "MATLAB", S "Perl", S "Dart",
  S "React", S "Angular", S "Vue", S "Vue.js", S "Svelte", S "Next.js", S "Nuxt.js",
  S "HTML", S "CSS", S "SASS", S "SCSS", S "Tailwind CSS", S "Bootstrap", S "jQuery",
  S "Webpack", S "Vite", S "Redux", S "MobX", S "Gatsby",
  S "Node.js", S "Express", S "Express.js", S "Django", S "Flask", S "FastAPI",
  S "Spring Boot", S "Spring", S "ASP.NET", S ".NET", S "Laravel", S "Rails",
  S "Ruby on Rails", S "NestJS", S "Fastify", S "Koa",
  S "MongoDB", S "MySQL", S "PostgreSQL", S "SQL", S "NoSQL", S "SQLite", S "Redis",
  S "Cassandra", S "DynamoDB", S "Firebase", S "Firestore", S "Oracle", S "SQL Server",
  S "MariaDB", S "Elasticsearch", S "CouchDB",
  S "AWS", S "Azure", S "Google Cloud", S "GCP", S "Docker", S "Kubernetes", S "Jenkins",
  S "CI/CD", S "Terraform", S "Ansible", S "Chef", S "Puppet", S "CircleCI", S "Travis CI",
  S "GitLab CI", S "Heroku", S "Vercel", S "Netlify", S "DigitalOcean",
  S "Git", S "GitHub", S "GitLab", S "Bitbucket", S "SVN", S "Mercurial",
  S "Jest", S "Mocha", S "Chai", S "Jasmine", S "Cypress", S "Selenium", S "Playwright",
  S "JUnit", S "PyTest", S "unittest", S "Postman", S "TestNG",
  S "React Native", S "Flutter", S "Android", S "iOS", S "Xamarin", S "Ionic",
  S "Machine Learning", S "Deep Learning", S "TensorFlow", S "PyTorch", S "Keras",
  S "Scikit-learn", S "Pandas", S "NumPy", S "Data Analysis", S "Data Science",
  S "Artificial Intelligence", S "NLP", S "Computer Vision", S "OpenCV",
  S "GraphQL", S "REST API", S "RESTful", S "Microservices", S "Agile", S "Scrum",
  S "JIRA", S "Confluence", S "Linux", S "Unix", S "Bash", S "Shell Scripting",
  S "OAuth", S "JWT", S "WebSockets", S "Socket.io", S "RabbitMQ", S "Kafka",
  S "API", S "JSON", S "XML", S "YAML", S "Nginx", S "Apache"]

/-- `CORE_KEYWORDS`: trigger phrases marking a chunk as core context. -/
def CORE_KEYWORDS : List Str := [
  S "must have", S "required", S "essential", S "mandatory", S "necessary", S "critical",
  S "need to have", S "must know", S "expertise in", S "proficiency in", S "experience with",
  S "strong knowledge", S "required skills", S "requirements", S "qualifications"]

/-- `OPTIONAL_KEYWORDS`: trigger phrases marking a chunk as optional context. -/
def OPTIONAL_KEYWORDS : List Str := [
  S "good to have", S "nice to have", S "optional", S "plus", S "bonus", S "preferred",
  S "desirable", S "advantage", S "beneficial", S "would be a plus", S "nice if you have",
  S "additional skills", S "preferred qualifications"]

/-- Insertion-ordered set `add` (JavaScript `Set.prototype.add` followed by
`Array.from`). -/
def setAdd (s : List Str) (x : Str) : List Str := if x ∈ s then s else s ++ [x]

/-- The three skill sets accumulated by `extractWeightedJDSkills`:
`coreSkillsSet`, `optionalSkillsSet` and `allSkillsSet`. -/
structure ExtractState where
  core : List Str
  opt : List Str
  all : List Str
deriving DecidableEq, Repr

/-- The per-skill regex test of `extractWeightedJDSkills`: skills shorter than
3 characters are skipped; otherwise the lower-cased, regex-escaped skill is
tested with word boundaries, case-insensitively, against the line (the escape
makes every skill character a literal, which is what `testWholeWord` matches). -/
def skillDetected (line skill : Str) : Bool :=
  if (lower skill).length < 3 then false else testWholeWord line skill

/-- The body of the inner `SKILL_LIST.forEach` loop, for a line whose context
flags are `isCore` / `isOpt`. -/
def processSkill (isCore isOpt : Bool) (line : Str) (st : ExtractState) (skill : Str) :
    ExtractState :=
  if skillDetected line skill then
    let all2 := setAdd st.all skill
    if isCore then ⟨setAdd st.core skill, st.opt, all2⟩
    else if isOpt then ⟨st.core, setAdd st.opt skill, all2⟩
    else ⟨st.core, st.opt, all2⟩
  else st

/-- The body of the outer `lines.forEach` loop. -/
def processLine (st : ExtractState) (line : Str) : ExtractState :=
  let lowerLine := lower line
  let isCoreContext := CORE_KEYWORDS.any (fun k => hasSub lowerLine k)
  let isOptionalContext := OPTIONAL_KEYWORDS.any (fun k => hasSub lowerLine k)
  SKILL_LIST.foldl (processSkill isCoreContext isOptionalContext line) st

/-- Splits the job text into trimmed, non-empty chunks (`split(/\n|\./)`) and
runs the context-classification loop over them. -/
def extractSets (jdText : Str) : ExtractState :=
  let lines := ((splitOnPred (fun c => c = '\n' || c = '.') jdText).map trim).filter
    (fun l => !l.isEmpty)
  lines.foldl processLine ⟨[], [], []⟩

/-- `extractWeightedJDSkills` of `backend/ats/jdWeight.utils.js` (a `none` or
empty input is rejected by the `!jdText || typeof jdText !== 'string'` guard). -/
def extractWeightedJDSkills (jdText : Option Str) : List Str × List Str :=
  match jdText with
  | none => ([], [])
  | some t =>
    if t.isEmpty then ([], [])
    else
      let st := extractSets t
      let coreSkills := if st.core = [] ∧ st.opt = [] ∧ st.all ≠ [] then st.all else st.core
      let optionalSkills := st.opt.filter (fun s => !decide (s ∈ st.core))
      (coreSkills, optionalSkills)

/-- Claim C6: for every job text, the extractor's core and optional sets are
disjoint (a skill classified into both tiers is kept only in core), and when
no chunk produced a core or optional classification while skills were seen,
the whole seen set is returned as core with optional empty. -/
theorem extractWeightedJDSkills_spec (jdText : Option Str) :
    (∀ s ∈ (extractWeightedJDSkills jdText).1, s ∉ (extractWeightedJDSkills jdText).2) ∧
    (∀ t, jdText = some t → t.isEmpty = false →
      (extractSets t).core = [] → (extractSets t).opt = [] → (extractSets t).all ≠ [] →
      extractWeightedJDSkills jdText = ((extractSets t).all, [])) := by
  constructor
  · intro s hs hs2
    cases jdText with
    | none => simp [extractWeightedJDSkills] at hs
    | some t =>
      by_cases he : t.isEmpty
      · simp [extractWeightedJDSkills, he] at hs
      · simp only [extractWeightedJDSkills, if_neg he] at hs hs2
        have := List.of_mem_filter hs2
        simp only [Bool.not_eq_true', decide_eq_false_iff_not] at this
        apply this
        by_cases hfb : (extractSets t).core = [] ∧ (extractSets t).opt = [] ∧
            (extractSets t).all ≠ []
        · rw [if_pos hfb] at hs
          have hopt := List.mem_filter.mp hs2
          rw [hfb.2.1] at hopt
          simp at hopt
        · rw [if_neg hfb] at hs
          exact hs
  · intro t ht he h1 h2 h3
    subst ht
    simp only [extractWeightedJDSkills, he, Bool.false_eq_true, if_false]
    rw [if_pos ⟨h1, h2, h3⟩, h2]
    rfl

set_option maxRecDepth 40000 in
/-- Witness for C6: on a job description with a required chunk and a
nice-to-have chunk mentioning Python in both, Python stays only in core; on an
untagged skill list, the fallback classifies every seen skill as core.  Both
facts follow from evaluating the extractor, and the theorem instantiates at
these inputs. -/
theorem extractWeightedJDSkills_spec_witness :
    extractWeightedJDSkills (some (S "Python required. Python and Docker nice to have"))
      = ([S "Python"], [S "Docker"]) ∧
    (S "Python" ∉ (extractWeightedJDSkills
      (some (S "Python required. Python and Docker nice to have"))).2) ∧
    extractWeightedJDSkills (some (S "We use Python and Docker"))
      = ([S "Python", S "Docker"], []) := by
  refine ⟨by decide, ?_, ?_⟩
  · exact (extractWeightedJDSkills_spec
      (some (S "Python required. Python and Docker nice to have"))).1 (S "Python") (by decide)
  · exact (extractWeightedJDSkills_spec (some (S "We use Python and Docker"))).2
      (S "We use Python and Docker") rfl (by decide) (by decide) (by decide) (by decide)

end ATS
namespace ATS

/-- Exact subtraction on fractions. -/
def Q.sub (a b : Q) : Q := Q.norm (a.num * b.den - b.num * a.den) (a.den * b.den)

/-- Stable insertion of `x` before the first element `y` with `bef x y`. -/
def ordInsert {α : Type} (bef : α → α → Bool) (x : α) : List α → List α
  | [] => [x]
  | y :: l => if bef x y then x :: y :: l else y :: ordInsert bef x l

/-- Stable sort by the strict comes-before relation `bef`: the embedding of
`Array.prototype.sort` with a consistent comparator (`bef a b` iff the
comparator is negative on `(a, b)`). -/
def insSort {α : Type} (bef : α → α → Bool) : List α → List α
  | [] => []
  | x :: l => ordInsert bef x (insSort bef l)

/-- Inserting preserves the elements. -/
theorem ordInsert_perm {α : Type} (bef : α → α → Bool) (x : α) :
    ∀ l : List α, (ordInsert bef x l).Perm (x :: l) := by
  intro l
  induction l with
  | nil => simp [ordInsert]
  | cons y t ih =>
    simp only [ordInsert]
    split
    · exact List.Perm.refl _
    · exact (List.Perm.cons y ih).trans (List.Perm.swap x y t)

/-- Sorting preserves the elements. -/
theorem insSort_perm {α : Type} (bef : α → α → Bool) :
    ∀ l : List α, (insSort bef l).Perm l := by
  intro l
  induction l with
  | nil => exact List.Perm.refl _
  | cons x t ih =>
    exact (ordInsert_perm bef x (insSort bef t)).trans (List.Perm.cons x ih)

/-- `calculateATSScore` of `backend/ats/simulator.utils.js`: per-tier
percentage — with an empty tier scoring 100 — blended with fixed 70/30 weights
and rounded to two decimals. -/
def calculateATSScore (matchedCore totalCore matchedOptional totalOptional : Nat) : Q :=
  let coreScore : Q :=
    if 0 < totalCore then ((Q.ofNat matchedCore).div (Q.ofNat totalCore)).mul (Q.ofInt 100)
    else Q.ofInt 100
  let optionalScore : Q :=
    if 0 < totalOptional then
      ((Q.ofNat matchedOptional).div (Q.ofNat totalOptional)).mul (Q.ofInt 100)
    else Q.ofInt 100
  round2 ((coreScore.mul (Q.norm 7 10)).add (optionalScore.mul (Q.norm 3 10)))

/-- The input object of `simulateATSImprovements`. -/
structure SimInput where
  coreSkills : List Str
  optionalSkills : List Str
  matchedCoreSkills : List Str
  missingCoreSkills : List Str
  matchedOptionalSkills : List Str
  missingOptionalSkills : List Str
deriving DecidableEq, Repr

/-- One entry of the simulator's `improvements` array before the final
projection. -/
structure Improvement where
  skill : Str
  itype : Str
  newScore : Q
  scoreGain : Q
deriving DecidableEq, Repr

/-- The simulator's sort comparator as a strict comes-before test: larger
score gain first; on ties, core-tier entries before optional-tier ones. -/
def simBefore (a b : Improvement) : Bool :=
  if a.scoreGain = b.scoreGain then a.itype = S "core" && b.itype = S "optional"
  else decide (b.scoreGain.qlt a.scoreGain)

/-- `simulateATSImprovements` of `backend/ats/simulator.utils.js`: current
score from the counts, one-skill-at-a-time recomputation for every missing
core and optional skill, sort by descending gain (core first on ties), and
projection to `{skill, newScore}`. -/
def simulateATSImprovements (input : SimInput) : Q × List (Str × Q) :=
  let totalCoreSkills := input.coreSkills.length
  let totalOptionalSkills := input.optionalSkills.length
  let currentMatchedCore := input.matchedCoreSkills.length
  let currentMatchedOptional := input.matchedOptionalSkills.length
  let currentScore := calculateATSScore currentMatchedCore totalCoreSkills
    currentMatchedOptional totalOptionalSkills
  let coreImps := input.missingCoreSkills.map (fun skill =>
    let newScore := calculateATSScore (currentMatchedCore + 1) totalCoreSkills
      currentMatchedOptional totalOptionalSkills
    (⟨skill, S "core", round2 newScore, round2 (newScore.sub currentScore)⟩ : Improvement))
  let optImps := input.missingOptionalSkills.map (fun skill =>
    let newScore := calculateATSScore currentMatchedCore totalCoreSkills
      (currentMatchedOptional + 1) totalOptionalSkills
    (⟨skill, S "optional", round2 newScore, round2 (newScore.sub currentScore)⟩ : Improvement))
  let improvements := insSort simBefore (coreImps ++ optImps)
  (round2 currentScore, improvements.map (fun i => (i.skill, i.newScore)))

/-- Counterexample to C2 as stated: with two core skills of which one is
matched and no optional skills, the simulator's direct-from-counts score is 65
(the empty optional tier contributes a full 30 points), while
`calculateWeightedATSScore` on the same counts reassigns 100% weight to the
core tier and returns 50 — the two scoring rules are not equivalent. -/
theorem simulator_score_ne_engine :
    (simulateATSImprovements ⟨[S "JavaScript", S "React"], [], [S "JavaScript"],
      [S "React"], [], []⟩).1 = ⟨65, 1⟩ ∧
    (calculateWeightedATSScore ⟨[S "JavaScript"], [S "React"], [], []⟩).atsScore = 50 ∧
    (simulateATSImprovements ⟨[S "JavaScript", S "React"], [], [S "JavaScript"],
        [S "React"], [], []⟩).1
      ≠ Q.ofInt (calculateWeightedATSScore ⟨[S "JavaScript"], [S "React"], [], []⟩).atsScore := by
  refine ⟨by decide, by decide, by decide⟩

/-- Claim C2 as amended: for every simulator input, `currentScore` and each
improvement's `newScore` equal the simulator's own direct-from-counts formula
`calculateATSScore` — per-tier percentage with **100** (not 0) for an empty
tier and the fixed 70/30 weighting in all cases, rounded to two decimal
places — applied to the corresponding match/total counts; this rule is *not*
equivalent to `calculateWeightedATSScore` (see the counterexample). -/
theorem simulateATSImprovements_spec (input : SimInput) :
    (simulateATSImprovements input).1
      = round2 (calculateATSScore input.matchedCoreSkills.length input.coreSkills.length
          input.matchedOptionalSkills.length input.optionalSkills.length) ∧
    (simulateATSImprovements input).2.length
      = input.missingCoreSkills.length + input.missingOptionalSkills.length ∧
    ∀ p ∈ (simulateATSImprovements input).2,
      (p.1 ∈ input.missingCoreSkills ∧
        p.2 = round2 (calculateATSScore (input.matchedCoreSkills.length + 1)
          input.coreSkills.length input.matchedOptionalSkills.length
          input.optionalSkills.length)) ∨
      (p.1 ∈ input.missingOptionalSkills ∧
        p.2 = round2 (calculateATSScore input.matchedCoreSkills.length
          input.coreSkills.length (input.matchedOptionalSkills.length + 1)
          input.optionalSkills.length)) := by
  refine ⟨rfl, ?_, ?_⟩
  · simp only [simulateATSImprovements, List.length_map]
    rw [(insSort_perm simBefore _).length_eq, List.length_append, List.length_map,
      List.length_map]
  · intro p hp
    simp only [simulateATSImprovements, List.mem_map] at hp
    obtain ⟨imp, himp, hproj⟩ := hp
    have hmem := (insSort_perm simBefore _).mem_iff.mp himp
    rw [List.mem_append] at hmem
    rcases hmem with hmem | hmem
    · left
      obtain ⟨skill, hskill, himp2⟩ := List.mem_map.mp hmem
      rw [← hproj, ← himp2]
      exact ⟨hskill, rfl⟩
    · right
      obtain ⟨skill, hskill, himp2⟩ := List.mem_map.mp hmem
      rw [← hproj, ← himp2]
      exact ⟨hskill, rfl⟩

/-- Witness for C2's amended claim: on the counterexample input the theorem
instantiates, the lone improvement is adding React for a new score of 100, and
the current score evaluates to 65. -/
theorem simulateATSImprovements_spec_witness :
    (simulateATSImprovements ⟨[S "JavaScript", S "React"], [], [S "JavaScript"],
      [S "React"], [], []⟩).2 = [(S "React", ⟨100, 1⟩)] ∧
    (((S "React", (⟨100, 1⟩ : Q)).1 ∈ [S "React"] ∧
      (S "React", (⟨100, 1⟩ : Q)).2 = round2 (calculateATSScore (1 + 1) 2 0 0)) ∨
    ((S "React", (⟨100, 1⟩ : Q)).1 ∈ ([] : List Str) ∧
      (S "React", (⟨100, 1⟩ : Q)).2 = round2 (calculateATSScore 1 2 (0 + 1) 0))) := by
  constructor
  · decide
  · exact (simulateATSImprovements_spec ⟨[S "JavaScript", S "React"], [], [S "JavaScript"],
      [S "React"], [], []⟩).2.2 (S "React", ⟨100, 1⟩) (by decide)

end ATS
namespace ATS

/-- Joins a list of strings with a separator (`Array.prototype.join`). -/
def joinSep (sep : Str) : List Str → Str
  | [] => []
  | [x] => x
  | x :: xs => x ++ sep ++ joinSep sep xs

/-- The feedback object of `generateATSFeedback`. -/
structure Feedback where
  summary : Str
  recommendations : List Str
deriving DecidableEq, Repr

/-- `generateSummary` of `backend/ats/feedback.utils.js`. -/
def generateSummary (atsScore : Int) (matchedCoreSkills missingCoreSkills : List Str) : Str :=
  let totalCoreSkills := matchedCoreSkills.length + missingCoreSkills.length
  let coreSkillsMatchRate : Int :=
    if 0 < totalCoreSkills then
      jsRound (((Q.ofNat matchedCoreSkills.length).div (Q.ofNat totalCoreSkills)).mul
        (Q.ofInt 100))
    else 0
  if 80 ≤ atsScore then
    S "Excellent match! Your resume scores " ++ intToStr atsScore ++ S "% and includes " ++
      natToStr matchedCoreSkills.length ++ S " of " ++ natToStr totalCoreSkills ++
      S " essential skills. You\x27re in a strong position for this role."
  else if 60 ≤ atsScore then
    S "Good match with room for improvement. Your resume scores " ++ intToStr atsScore ++
      S "% and covers " ++ intToStr coreSkillsMatchRate ++
      S "% of the core requirements. Adding a few key skills could significantly strengthen your application."
  else if 40 ≤ atsScore then
    S "Moderate match. Your resume scores " ++ intToStr atsScore ++
      S "% and is missing some important qualifications. Consider highlighting relevant experience or developing key skills before applying."
  else
    S "Limited match. Your resume scores " ++ intToStr atsScore ++
      S "% and lacks several essential requirements for this position. Significant skill development may be needed to qualify for this role."

/-- `generateRecommendations` of `backend/ats/feedback.utils.js`. -/
def generateRecommendations (atsScore : Int)
    (missingCoreSkills missingOptionalSkills matchedCoreSkills
      _matchedOptionalSkills : List Str) : List Str :=
  let part1 :=
    if 0 < missingCoreSkills.length then
      if missingCoreSkills.length = 1 then
        [S "Add \"" ++ missingCoreSkills.headI ++
          S "\" to your resume - this is a critical requirement for the role."]
      else if missingCoreSkills.length ≤ 3 then
        [S "Include these essential skills in your resume: " ++
          joinSep (S ", ") missingCoreSkills ++
          S ". These are core requirements that hiring managers look for."]
      else
        [S "Focus on adding these critical skills first: " ++
          joinSep (S ", ") (missingCoreSkills.take 3) ++ S ". You\x27re also missing " ++
          natToStr (missingCoreSkills.length - 3) ++ S " other core requirements."]
    else []
  let part2 :=
    if atsScore < 40 ∧ 3 < missingCoreSkills.length then
      [S "Consider gaining experience in the core areas where you\x27re lacking qualifications before applying. This will significantly improve your chances."]
    else []
  let part3 :=
    if 0 < matchedCoreSkills.length ∧ atsScore < 70 then
      [S "Make sure your existing skills (" ++ joinSep (S ", ") (matchedCoreSkills.take 3) ++
        S ") are prominently featured in your resume summary and work experience."]
    else []
  let part4 :=
    if 0 < missingOptionalSkills.length ∧ missingCoreSkills.length < 3 then
      if missingOptionalSkills.length ≤ 2 then
        [S "To stand out from other candidates, consider adding: " ++
          joinSep (S ", ") missingOptionalSkills ++ S "."]
      else
        [S "To strengthen your application further, consider highlighting these additional skills if you have them: " ++
          joinSep (S ", ") (missingOptionalSkills.take 2) ++ S "."]
    else []
  let part5 :=
    if 60 ≤ atsScore ∧ atsScore < 80 then
      [S "Use industry-standard terms and keywords naturally throughout your resume to improve visibility in applicant tracking systems."]
    else []
  let part6 :=
    if 80 ≤ atsScore then
      [S "Your resume is well-aligned with the job requirements. Ensure your experience section provides specific examples of how you\x27ve applied these skills."]
    else []
  let recommendations := part1 ++ part2 ++ part3 ++ part4 ++ part5 ++ part6
  if recommendations.isEmpty then
    [S "Review the job description carefully and tailor your resume to emphasize relevant experience and accomplishments."]
  else recommendations

/-- `generateATSFeedback` of `backend/ats/feedback.utils.js` (the input object
carries `atsScore` and the four comparison lists). -/
def generateATSFeedback (atsScore : Int) (wc : WeightedComparison) : Feedback :=
  ⟨generateSummary atsScore wc.matchedCoreSkills wc.missingCoreSkills,
    generateRecommendations atsScore wc.missingCoreSkills wc.missingOptionalSkills
      wc.matchedCoreSkills wc.matchedOptionalSkills⟩

/-- `personalInfo` of a parsed resume. -/
structure PersonalInfo where
  email : Option Str
  phone : Option Str
  linkedin : Option Str
deriving DecidableEq, Repr

/-- A parsed resume, as produced by the external resume parser and consumed by
the quality analyzer and orchestrator (`none` models absent / `null`
fields). -/
structure ParsedResume where
  personalInfo : PersonalInfo
  summary : Option (List Str)
  experience : Option (List Str)
  education : Option (List Str)
  projects : Option (List Str)
  skills : Option (List Str)
  rawText : Option Str
deriving DecidableEq, Repr

/-- JavaScript truthiness of a possibly-absent string field. -/
def truthyS : Option Str → Bool
  | none => false
  | some s => !s.isEmpty

/-- JavaScript `x && x.length > 0` for a possibly-absent array field. -/
def truthyL {α : Type} : Option (List α) → Bool
  | none => false
  | some l => !l.isEmpty

/-- `WEAK_VERBS` of `backend/ats/analyze.utils.js`, in source order. -/
def WEAK_VERBS : List Str := [S "worked", S "helped", S "assisted", S "responsible for",
  S "handled", S "made", S "did", S "got", S "used", S "tried"]

/-- Total whole-word weak-verb occurrences in the lower-cased raw text
(`''` when `rawText` is absent). -/
def weakVerbCount (rawText : Option Str) : Nat :=
  let lowerText := match rawText with | some t => lower t | none => []
  (WEAK_VERBS.map (fun v => countWord lowerText v)).sum

/-- The weak-verb improvement note, quoting the count and the example term
`WEAK_VERBS[0]`. -/
def weakVerbMsg (n : Nat) : Str :=
  S "Found " ++ natToStr n ++
    S " weak action verbs (e.g., \"worked\"). Replace with strong alternatives like \"Engineered\", \"Optimized\", \"Spearheaded\"."

/-- The per-section point awards of `analyzeResumeQuality`. -/
structure QSections where
  contact : Nat
  summary : Nat
  experience : Nat
  education : Nat
  projects : Nat
deriving DecidableEq, Repr

/-- One entry of the quality `issues` list. -/
structure QIssue where
  itype : Str
  message : Str
deriving DecidableEq, Repr

/-- The `QualityResult` of `analyzeResumeQuality`. -/
structure Quality where
  score : Int
  sections : QSections
  issues : List QIssue
  improvements : List Str
deriving DecidableEq, Repr

/-- `analyzeResumeQuality` of `backend/ats/analyze.utils.js`: fixed point
budget (email 5, phone 5, LinkedIn 5, summary 5, experience 10, education 5,
projects 5), critical/warning issues for missing fields, weak-verb note when
more than 3 weak verbs occur, and the raw total rescaled to 0–100. -/
def analyzeResumeQuality (p : ParsedResume) : Quality :=
  let secContact := (if truthyS p.personalInfo.email then 5 else 0) +
    (if truthyS p.personalInfo.phone then 5 else 0) +
    (if truthyS p.personalInfo.linkedin then 5 else 0)
  let secSummary := if truthyL p.summary then 5 else 0
  let secExperience := if truthyL p.experience then 10 else 0
  let secEducation := if truthyL p.education then 5 else 0
  let secProjects := if truthyL p.projects then 5 else 0
  let issues :=
    (if truthyS p.personalInfo.email then []
      else [(⟨S "critical", S "Missing email address"⟩ : QIssue)]) ++
    (if truthyS p.personalInfo.phone then []
      else [(⟨S "warning", S "Missing phone number"⟩ : QIssue)]) ++
    (if truthyL p.experience then []
      else [(⟨S "critical", S "Missing Experience section"⟩ : QIssue)]) ++
    (if truthyL p.education then []
      else [(⟨S "warning", S "Missing Education section"⟩ : QIssue)])
  let wvc := weakVerbCount p.rawText
  let improvements :=
    (if truthyS p.personalInfo.linkedin then []
      else [S "Adding a LinkedIn profile link is recommended"]) ++
    (if truthyL p.summary then [] else [S "Consider adding a professional summary"]) ++
    (if 3 < wvc then [weakVerbMsg wvc] else [])
  let totalSectionScore := secContact + secSummary + secExperience + secEducation + secProjects
  let score := min 100 (jsRound (((Q.ofNat totalSectionScore).div (Q.ofNat 40)).mul
    (Q.ofInt 100)))
  ⟨score, ⟨secContact, secSummary, secExperience, secEducation, secProjects⟩, issues,
    improvements⟩

end ATS
namespace ATS

/-- The weak-verb note never collides with the LinkedIn recommendation. -/
theorem weakVerbMsg_ne_linkedin (n : Nat) :
    weakVerbMsg n ≠ S "Adding a LinkedIn profile link is recommended" := by
  intro h
  have h1 : (weakVerbMsg n).head? = some 'F' := rfl
  rw [h] at h1
  exact absurd h1 (by decide)

/-- The weak-verb note never collides with the summary recommendation. -/
theorem weakVerbMsg_ne_summary (n : Nat) :
    weakVerbMsg n ≠ S "Consider adding a professional summary" := by
  intro h
  have h1 : (weakVerbMsg n).head? = some 'F' := rfl
  rw [h] at h1
  exact absurd h1 (by decide)

/-- Claim C9: `analyzeResumeQuality` awards exactly the fixed point budget
(email 5, phone 5, LinkedIn 5, summary 5, experience 10, education 5,
projects 5; raw total at most 40), returns `min(100, round(raw/40*100))`,
records missing email / experience as critical issues and missing phone /
education as warnings (and nothing else), and emits the weak-verb note —
quoting the count and the example term — exactly when the whole-word
case-insensitive weak-verb count exceeds 3. -/
theorem analyzeResumeQuality_spec (p : ParsedResume) :
    (analyzeResumeQuality p).sections.contact
        = (if truthyS p.personalInfo.email then 5 else 0) +
          (if truthyS p.personalInfo.phone then 5 else 0) +
          (if truthyS p.personalInfo.linkedin then 5 else 0) ∧
    (analyzeResumeQuality p).sections.summary = (if truthyL p.summary then 5 else 0) ∧
    (analyzeResumeQuality p).sections.experience = (if truthyL p.experience then 10 else 0) ∧
    (analyzeResumeQuality p).sections.education = (if truthyL p.education then 5 else 0) ∧
    (analyzeResumeQuality p).sections.projects = (if truthyL p.projects then 5 else 0) ∧
    (analyzeResumeQuality p).sections.contact + (analyzeResumeQuality p).sections.summary +
        (analyzeResumeQuality p).sections.experience +
        (analyzeResumeQuality p).sections.education +
        (analyzeResumeQuality p).sections.projects ≤ 40 ∧
    (analyzeResumeQuality p).score
        = min 100 (jsRound (((Q.ofNat ((analyzeResumeQuality p).sections.contact +
            (analyzeResumeQuality p).sections.summary +
            (analyzeResumeQuality p).sections.experience +
            (analyzeResumeQuality p).sections.education +
            (analyzeResumeQuality p).sections.projects)).div (Q.ofNat 40)).mul
            (Q.ofInt 100))) ∧
    ((⟨S "critical", S "Missing email address"⟩ : QIssue) ∈ (analyzeResumeQuality p).issues
        ↔ truthyS p.personalInfo.email = false) ∧
    ((⟨S "warning", S "Missing phone number"⟩ : QIssue) ∈ (analyzeResumeQuality p).issues
        ↔ truthyS p.personalInfo.phone = false) ∧
    ((⟨S "critical", S "Missing Experience section"⟩ : QIssue) ∈ (analyzeResumeQuality p).issues
        ↔ truthyL p.experience = false) ∧
    ((⟨S "warning", S "Missing Education section"⟩ : QIssue) ∈ (analyzeResumeQuality p).issues
        ↔ truthyL p.education = false) ∧
    (∀ i ∈ (analyzeResumeQuality p).issues,
      i = (⟨S "critical", S "Missing email address"⟩ : QIssue) ∨
      i = (⟨S "warning", S "Missing phone number"⟩ : QIssue) ∨
      i = (⟨S "critical", S "Missing Experience section"⟩ : QIssue) ∨
      i = (⟨S "warning", S "Missing Education section"⟩ : QIssue)) ∧
    (weakVerbMsg (weakVerbCount p.rawText) ∈ (analyzeResumeQuality p).improvements
        ↔ 3 < weakVerbCount p.rawText) := by
  refine ⟨rfl, rfl, rfl, rfl, rfl, ?_, rfl, ?_, ?_, ?_, ?_, ?_, ?_⟩
  · simp only [analyzeResumeQuality]
    split_ifs <;> omega
  · simp only [analyzeResumeQuality, List.mem_append]
    by_cases h1 : truthyS p.personalInfo.email <;>
      by_cases h2 : truthyS p.personalInfo.phone <;>
      by_cases h3 : truthyL p.experience <;>
      by_cases h4 : truthyL p.education <;>
      simp [h1, h2, h3, h4] <;> decide
  · simp only [analyzeResumeQuality, List.mem_append]
    by_cases h1 : truthyS p.personalInfo.email <;>
      by_cases h2 : truthyS p.personalInfo.phone <;>
      by_cases h3 : truthyL p.experience <;>
      by_cases h4 : truthyL p.education <;>
      simp [h1, h2, h3, h4] <;> decide
  · simp only [analyzeResumeQuality, List.mem_append]
    by_cases h1 : truthyS p.personalInfo.email <;>
      by_cases h2 : truthyS p.personalInfo.phone <;>
      by_cases h3 : truthyL p.experience <;>
      by_cases h4 : truthyL p.education <;>
      simp [h1, h2, h3, h4] <;> decide
  · simp only [analyzeResumeQuality, List.mem_append]
    by_cases h1 : truthyS p.personalInfo.email <;>
      by_cases h2 : truthyS p.personalInfo.phone <;>
      by_cases h3 : truthyL p.experience <;>
      by_cases h4 : truthyL p.education <;>
      simp [h1, h2, h3, h4] <;> decide
  · intro i hi
    simp only [analyzeResumeQuality, List.mem_append] at hi
    rcases hi with ((hi | hi) | hi) | hi <;>
      (split at hi <;> simp only [List.mem_singleton, List.not_mem_nil] at hi) <;>
      simp [hi]
  · simp only [analyzeResumeQuality, List.mem_append]
    by_cases hL : truthyS p.personalInfo.linkedin <;>
      by_cases hS : truthyL p.summary <;>
      by_cases hW : 3 < weakVerbCount p.rawText <;>
      simp [hL, hS, hW, weakVerbMsg_ne_linkedin, weakVerbMsg_ne_summary]

end ATS
namespace ATS

/-- Witness for C9: a resume missing its email, with four weak-verb
occurrences, gets the critical email issue and the weak-verb note quoting the
count 4, with raw points 20 rescaled to score 50; the first two follow by
instantiating the theorem. -/
theorem analyzeResumeQuality_spec_witness :
    weakVerbCount (some (S "worked and worked and worked and worked")) = 4 ∧
    (⟨S "critical", S "Missing email address"⟩ : QIssue) ∈
      (analyzeResumeQuality ⟨⟨none, some (S "123"), some (S "li")⟩, none, some [S "x"],
        none, none, none, some (S "worked and worked and worked and worked")⟩).issues ∧
    weakVerbMsg 4 ∈
      (analyzeResumeQuality ⟨⟨none, some (S "123"), some (S "li")⟩, none, some [S "x"],
        none, none, none, some (S "worked and worked and worked and worked")⟩).improvements ∧
    (analyzeResumeQuality ⟨⟨none, some (S "123"), some (S "li")⟩, none, some [S "x"],
        none, none, none, some (S "worked and worked and worked and worked")⟩).score = 50 := by
  refine ⟨by decide, ?_, ?_, by decide⟩
  · exact ((analyzeResumeQuality_spec ⟨⟨none, some (S "123"), some (S "li")⟩, none,
      some [S "x"], none, none, none,
      some (S "worked and worked and worked and worked")⟩).2.2.2.2.2.2.2.1).mpr (by decide)
  · have h := ((analyzeResumeQuality_spec ⟨⟨none, some (S "123"), some (S "li")⟩, none,
      some [S "x"], none, none, none,
      some (S "worked and worked and worked and worked")⟩).2.2.2.2.2.2.2.2.2.2.2.2).mpr
      (by decide)
    exact (by decide : weakVerbCount (some (S "worked and worked and worked and worked")) = 4)
      ▸ h

/-- The `skills` view of an `AnalysisResult`. -/
structure SkillsView where
  matched : List Str
  missing : List Str
  coreMatches : List Str
  optionalMatches : List Str
deriving DecidableEq, Repr

/-- The `feedback` view of an `AnalysisResult`. -/
structure FeedbackView where
  summary : Str
  skillRecommendations : List Str
  improvements : List Str
  criticalIssues : List QIssue
deriving DecidableEq, Repr

/-- The `AnalysisResult` returned by `analyzeResume`. -/
structure AnalysisResult where
  success : Bool
  score : Int
  scoreLabel : Str
  skillScore : Int
  qualityScore : Int
  skills : SkillsView
  quality : Quality
  feedback : FeedbackView
deriving DecidableEq, Repr

/-- The override summary used by the relevance gate. -/
def gateSummary : Str :=
  S "Your resume has poor alignment with this job description. Even with good formatting, the lack of core keywords prevents a passing score."

/-- The score-combination and gating logic of `analyzeResume` (its body after
the three analysis calls): blend skill and quality scores 70/30, cap at 15
with label "Not Relevant" and an overriding summary when the skill score is
below 10, and otherwise label by the fixed bands. -/
def analyzeCombine (skillResult : ScoreResult) (skillComparison : WeightedComparison)
    (qualityAnalysis : Quality) : AnalysisResult :=
  let weightedScore := ((Q.ofInt skillResult.atsScore).mul (Q.norm 7 10)).add
    ((Q.ofInt qualityAnalysis.score).mul (Q.norm 3 10))
  let gated := skillResult.atsScore < 10
  let finalScore : Int :=
    if gated then min (jsRound weightedScore) 15 else jsRound weightedScore
  let scoreLabel : Str :=
    if gated then S "Not Relevant"
    else if 80 ≤ finalScore then S "Excellent Match"
    else if 60 ≤ finalScore then S "Good Match"
    else if 40 ≤ finalScore then S "Fair Match"
    else S "Needs Work"
  let skillFeedback := generateATSFeedback skillResult.atsScore skillComparison
  ⟨true, finalScore, scoreLabel, skillResult.atsScore, qualityAnalysis.score,
    ⟨skillComparison.matchedCoreSkills ++ skillComparison.matchedOptionalSkills,
      skillComparison.missingCoreSkills,
      skillComparison.matchedCoreSkills, skillComparison.matchedOptionalSkills⟩,
    qualityAnalysis,
    ⟨if gated then gateSummary else skillFeedback.summary,
      skillFeedback.recommendations, qualityAnalysis.improvements, qualityAnalysis.issues⟩⟩

/-- `analyzeResume` of `backend/ats/analyze.utils.js`: extract weighted JD
skills, compare against the resume skills, score, analyze quality, and combine
with the relevance gate. -/
def analyzeResume (parsedResume : ParsedResume) (jobDescription : Option Str) :
    AnalysisResult :=
  let ex := extractWeightedJDSkills jobDescription
  let skillComparison := compareWeightedSkills ((parsedResume.skills.getD []).map some)
    (ex.1.map some) (ex.2.map some)
  analyzeCombine (calculateWeightedATSScore skillComparison) skillComparison
    (analyzeResumeQuality parsedResume)

/-- The gate branch of the combination logic. -/
theorem analyzeCombine_gate (sr : ScoreResult) (sc : WeightedComparison) (qa : Quality)
    (h : sr.atsScore < 10) :
    (analyzeCombine sr sc qa).score
        = min (jsRound (((Q.ofInt sr.atsScore).mul (Q.norm 7 10)).add
            ((Q.ofInt qa.score).mul (Q.norm 3 10)))) 15 ∧
      (analyzeCombine sr sc qa).score ≤ 15 ∧
      (analyzeCombine sr sc qa).scoreLabel = S "Not Relevant" ∧
      (analyzeCombine sr sc qa).feedback.summary = gateSummary := by
  have hs : (analyzeCombine sr sc qa).score
      = min (jsRound (((Q.ofInt sr.atsScore).mul (Q.norm 7 10)).add
          ((Q.ofInt qa.score).mul (Q.norm 3 10)))) 15 := by
    simp [analyzeCombine, if_pos h]
  refine ⟨hs, ?_, ?_, ?_⟩
  · rw [hs]
    exact min_le_right _ _
  · simp [analyzeCombine, if_pos h]
  · simp [analyzeCombine, if_pos h]

/-- Claim C1: whenever the skill score computed inside `analyzeResume` is
below 10, the returned final score is `min(round(skillScore*0.7 +
qualityScore*0.3), 15)` — hence at most 15 regardless of the quality score —
the label is "Not Relevant", and the feedback summary is the override text
stating that formatting cannot compensate for skill mismatch. -/
theorem analyzeResume_gate (p : ParsedResume) (jd : Option Str)
    (h : (analyzeResume p jd).skillScore < 10) :
    (analyzeResume p jd).score
        = min (jsRound (((Q.ofInt (analyzeResume p jd).skillScore).mul (Q.norm 7 10)).add
            ((Q.ofInt (analyzeResume p jd).qualityScore).mul (Q.norm 3 10)))) 15 ∧
      (analyzeResume p jd).score ≤ 15 ∧
      (analyzeResume p jd).scoreLabel = S "Not Relevant" ∧
      (analyzeResume p jd).feedback.summary = gateSummary := by
  exact analyzeCombine_gate _ _ _ h

set_option maxRecDepth 200000 in
/-- Witness for C1: a fully formatted resume (quality score 100) matched
against a job description it shares no skills with is capped at 15 and
labelled "Not Relevant", by instantiating the gate theorem at that input. -/
theorem analyzeResume_gate_witness :
    (analyzeResume ⟨⟨some (S "a@b.c"), some (S "123"), some (S "li")⟩, some [S "s"],
        some [S "e"], some [S "ed"], some [S "p"], some [], none⟩
      (some (S "Python required"))).skillScore = 0 ∧
    (analyzeResume ⟨⟨some (S "a@b.c"), some (S "123"), some (S "li")⟩, some [S "s"],
        some [S "e"], some [S "ed"], some [S "p"], some [], none⟩
      (some (S "Python required"))).qualityScore = 100 ∧
    (analyzeResume ⟨⟨some (S "a@b.c"), some (S "123"), some (S "li")⟩, some [S "s"],
        some [S "e"], some [S "ed"], some [S "p"], some [], none⟩
      (some (S "Python required"))).score ≤ 15 ∧
    (analyzeResume ⟨⟨some (S "a@b.c"), some (S "123"), some (S "li")⟩, some [S "s"],
        some [S "e"], some [S "ed"], some [S "p"], some [], none⟩
      (some (S "Python required"))).scoreLabel = S "Not Relevant" := by
  refine ⟨by decide, by decide, ?_, ?_⟩
  · exact (analyzeResume_gate ⟨⟨some (S "a@b.c"), some (S "123"), some (S "li")⟩,
      some [S "s"], some [S "e"], some [S "ed"], some [S "p"], some [], none⟩
      (some (S "Python required")) (by decide)).2.1
  · exact (analyzeResume_gate ⟨⟨some (S "a@b.c"), some (S "123"), some (S "li")⟩,
      some [S "s"], some [S "e"], some [S "ed"], some [S "p"], some [], none⟩
      (some (S "Python required")) (by decide)).2.2.1

end ATS
namespace ATS

/-- The fragment of JavaScript regular expressions used by the assistant's
pattern tables: literals, `\s+`, concatenation, alternation, and `?`. -/
inductive Pat where
  | lit (s : Str)
  | ws
  | seq (p q : Pat)
  | alt (p q : Pat)
  | opt (p : Pat)
deriving Repr

/-- Consumes the literal `w` from the head of `s`. -/
def dropLit : Str → Str → Option Str
  | [], s => some s
  | _ :: _, [] => none
  | a :: w, c :: s => if a = c then dropLit w s else none

/-- All remainders after consuming one or more whitespace characters. -/
def wsTails : Str → List Str
  | [] => []
  | c :: cs => if isWs c then cs :: wsTails cs else []

/-- All remainders of `s` after matching `p` at its head (backtracking
matcher). -/
def patRem : Pat → Str → List Str
  | .lit w, s => match dropLit w s with | some r => [r] | none => []
  | .ws, s => wsTails s
  | .seq p q, s => ((patRem p s).map (patRem q)).flatten
  | .alt p q, s => patRem p s ++ patRem q s
  | .opt p, s => s :: patRem p s
termination_by structural p => p

/-- `regex.test(s)` for an unanchored pattern: `p` matches at some position. -/
def patSearch : Pat → Str → Bool
  | p, [] => !(patRem p []).isEmpty
  | p, c :: cs => !(patRem p (c :: cs)).isEmpty || patSearch p cs

/-- `regex.test(s)` for a `^...$`-anchored pattern: `p` matches all of `s`. -/
def patFull (p : Pat) (s : Str) : Bool := (patRem p s).any (fun r => r.isEmpty)

/-- Literal pattern from a string literal. -/
def pl (s : String) : Pat := .lit (S s)

/-- Concatenation of a pattern list. -/
def pseq (l : List Pat) : Pat := l.foldr Pat.seq (.lit [])

/-- Concatenation of a word list with `\s+` between the words. -/
def wseq (l : List Pat) : Pat := pseq (l.intersperse Pat.ws)

end ATS
namespace ATS

/-- `DOMAIN_KEYWORDS` of `src/ai/intents/patterns.js`, in source order. -/
def DOMAIN_KEYWORDS : List Str := [
  S "resume", S "cv", S "ats", S "score", S "skills", S "experience", S "job",
  S "description", S "keywords", S "match", S "format", S "bullet", S "section",
  S "work history", S "education", S "certification", S "qualification",
  S "hiring", S "recruiter", S "applicant", S "tracking", S "optimize",
  S "improve", S "rewrite", S "rephrase", S "missing", S "weak", S "strong"]

/-- One entry of `INTENT_PATTERNS`. -/
structure IntentPattern where
  iname : Str
  keywords : List Str
  phrases : List Pat
  baseConfidence : Q
  pri : Nat

/-- `INTENT_PATTERNS` of `src/ai/intents/patterns.js`: keyword lists, phrase
regexes (translated to `Pat`), base confidences and priorities, in source
order. -/
def INTENT_PATTERNS : List IntentPattern := [
  ⟨S "SCORE_EXPLANATION",
    [S "score", S "why", S "low", S "high", S "explain", S "breakdown", S "rating",
      S "grade", S "result", S "percentage"],
    [wseq [pl "why", .alt (pl "is") (pl "was"), .alt (pl "my") (pl "the"), pl "score"],
      wseq [pl "explain", .alt (pl "my") (pl "the"), pl "score"],
      wseq [pl "score", .alt (pl "is") (pl "was"),
        .alt (pl "low") (.alt (pl "high") (.alt (pl "bad") (pl "good")))],
      wseq [pl "how", pl "did", pl "i", .alt (pl "score") (.alt (pl "do") (pl "perform"))],
      wseq [pl "what", pl "does", .alt (pl "my") (pl "the"), pl "score", pl "mean"],
      wseq [pl "breakdown", .alt (pl "of") (pl "for"), .alt (pl "my") (pl "the"), pl "score"]],
    Q.norm 9 10, 1⟩,
  ⟨S "SKILLS_GAP",
    [S "missing", S "skills", S "gap", S "lack", S "need", S "required", S "keywords",
      S "absent", S "not found"],
    [wseq [pl "what", .alt (pl "skills") (pl "keywords"),
        .alt (wseq [pl "am", pl "i"]) (pl "are"), pl "missing"],
      wseq [pl "missing", .alt (pl "skills") (pl "keywords")],
      wseq [pseq [pl "skill", .opt (pl "s")], pl "gap"],
      wseq [pl "what", .alt (pl "should") (pl "do"), pl "i", .alt (pl "add") (pl "include")],
      wseq [pl "which", .alt (pl "skills") (pl "keywords"), .alt (pl "are") (pl "were"),
        pl "not", pl "found"]],
    Q.norm 9 10, 2⟩,
  ⟨S "JD_MATCH",
    [S "match", S "job", S "description", S "fit", S "aligned", S "relevant",
      S "compatible", S "suitable"],
    [pseq [pl "how", .ws, .opt (pseq [pl "well", .ws]), .alt (pl "do") (pl "does"), .ws,
        .alt (pl "i") (.alt (pl "it") (pl "my resume")), .ws, pl "match"],
      wseq [pl "match", .alt (pl "percentage") (.alt (pl "rate") (pl "score"))],
      wseq [pl "fit", pl "for", .alt (pl "this") (pl "the"), pl "job"],
      pseq [pl "aligned", .ws, pl "with", .ws, .opt (pseq [pl "the", .ws]), pl "job"],
      pseq [pl "compare", .ws, .alt (pl "to") (pl "with"), .ws, .opt (pseq [pl "the", .ws]),
        pl "job"]],
    Q.norm 9 10, 3⟩,
  ⟨S "EXPERIENCE_IMPROVE",
    [S "experience", S "work", S "history", S "weak", S "improve", S "better",
      S "strengthen", S "enhance", S "bullets"],
    [pseq [pl "improve", .ws, .opt (pseq [pl "my", .ws]), pl "experience"],
      wseq [pl "weak", .alt (pl "experience") (wseq [pl "work", pl "history"])],
      pseq [pl "how", .ws, .alt (pl "can") (pl "do"), .ws, pl "i", .ws,
        .alt (pl "improve") (pl "enhance"), .ws, .opt (pseq [pl "my", .ws]), pl "experience"],
      wseq [pl "experience", pl "section", .alt (pl "is") (pl "looks"),
        .alt (pl "weak") (pl "bad")],
      pseq [pl "make", .ws, .opt (pseq [pl "my", .ws]), pl "experience", .ws,
        .alt (pl "better") (pl "stronger")]],
    Q.norm 85 100, 4⟩,
  ⟨S "KEYWORD_SUGGESTION",
    [S "suggest", S "recommend", S "add", S "include", S "keywords", S "terms",
      S "phrases", S "words"],
    [wseq [pl "suggest", .alt (pl "keywords") (.alt (pl "skills") (pl "terms"))],
      wseq [pl "what", .alt (pl "keywords") (pl "skills"), .alt (pl "should") (pl "can"),
        pl "i", pl "add"],
      pseq [pl "recommend", .ws, .opt (pseq [pl "any", .ws]),
        .alt (pl "keywords") (pl "skills")],
      pseq [pseq [pl "keyword", .opt (pl "s")], .ws, pl "to", .ws,
        .alt (pl "add") (pl "include")]],
    Q.norm 85 100, 5⟩,
  ⟨S "FORMATTING_FEEDBACK",
    [S "format", S "layout", S "structure", S "design", S "template", S "sections",
      S "organize", S "length", S "pages"],
    [pseq [pl "format", .opt (pl "ting"), .ws,
        .alt (pseq [pl "issue", .opt (pl "s")])
          (.alt (pseq [pl "problem", .opt (pl "s")]) (pl "feedback"))],
      wseq [.alt (pl "is") (pl "was"), .alt (pl "the") (pl "my"), pl "format"],
      wseq [pl "how", .alt (pl "is") (pl "should"), .alt (pl "the") (pl "my"),
        .alt (pl "format") (.alt (pl "layout") (pl "structure"))],
      wseq [pl "structure", .alt (pl "of") (pl "for"), .alt (pl "my") (pl "the"),
        pl "resume"],
      wseq [pl "organize", .alt (pl "my") (pl "the"), pl "resume"]],
    Q.norm 85 100, 6⟩,
  ⟨S "RESUME_REWRITE",
    [S "rewrite", S "rephrase", S "reword", S "improve", S "bullet", S "sentence",
      S "stronger", S "action verbs"],
    [wseq [pl "rewrite", .alt (pl "this") (.alt (pl "my") (pl "the")),
        .alt (pl "bullet") (.alt (pl "sentence") (pl "point"))],
      wseq [pl "rephrase", .alt (pl "this") (pl "my")],
      pseq [pl "make", .ws, .alt (pl "this") (pl "it"), .ws, .opt (pseq [pl "sound", .ws]),
        .alt (pl "better") (.alt (pl "stronger") (pl "professional"))],
      wseq [pl "improve", .alt (pl "this") (pl "my"), .alt (pl "bullet") (pl "sentence")],
      wseq [pl "use", .alt (pl "stronger") (.alt (pl "better") (pl "action")), pl "verbs"]],
    Q.norm 8 10, 7⟩,
  ⟨S "SECTION_ANALYSIS",
    [S "section", S "education", S "summary", S "objective", S "projects",
      S "certifications", S "analyze"],
    [pseq [pl "analyze", .ws, .opt (pseq [pl "my", .ws]),
        .alt (pl "education") (.alt (pl "summary") (pl "projects"))],
      wseq [.alt (pl "education") (.alt (pl "summary") (pseq [pl "project", .opt (pl "s")])),
        pl "section"],
      pseq [pl "how", .ws, .alt (pl "is") (pl "was"), .ws, .opt (pseq [pl "my", .ws]),
        .alt (pl "education") (pl "summary")],
      pseq [pl "feedback", .ws, .alt (pl "on") (pl "for"), .ws, .opt (pseq [pl "my", .ws]),
        .alt (pl "education") (pl "summary")]],
    Q.norm 8 10, 8⟩]

/-- `OFF_TOPIC_INDICATORS`: unanchored regexes whose match anywhere in the
query forces refusal. -/
def OFF_TOPIC_INDICATORS : List Pat := [
  pl "weather", pl "news", pl "sports", pl "politics", pl "recipe", pl "cook",
  pl "movie", pl "music", pl "game", pl "play", pl "travel", pl "hotel",
  pl "restaurant", pl "shop", pl "buy", pl "price", pl "stock", pl "crypto",
  pl "health", pl "medical", pl "doctor", pl "legal", pl "lawyer",
  pl "math", pl "calculate", pl "translate", pl "language",
  wseq [pl "who", pl "is"], wseq [pl "what", pl "year"], wseq [pl "when", pl "was"],
  wseq [pl "history", pl "of"]]

/-- `AMBIGUOUS_PATTERNS`: fully-anchored queries that always request
clarification. -/
def AMBIGUOUS_PATTERNS : List Pat := [
  pl "help", pl "improve", pl "better", pl "fix",
  pseq [.alt (pl "what") (pl "how"), .ws, pl "now", .opt (pl "?")]]

/-- The result of `validateDomain`. -/
structure DomainResult where
  isValid : Bool
  confidence : Q
  reason : Str
deriving DecidableEq, Repr

/-- The domain-relevance threshold (`DOMAIN_THRESHOLD = 0.3`). -/
def DOMAIN_THRESHOLD : Q := Q.norm 3 10

/-- `validateDomain` of `src/ai/intents/index.js`: off-topic regexes refuse
immediately; otherwise the keyword-density confidence admits at threshold 0.3,
or the presence of at least one domain keyword does. -/
def validateDomain (query : Str) : DomainResult :=
  let normalizedQuery := trim (lower query)
  if OFF_TOPIC_INDICATORS.any (fun p => patSearch p normalizedQuery) then
    ⟨false, Q.ofInt 0, S "OFF_TOPIC"⟩
  else
    let domainKeywordCount :=
      (DOMAIN_KEYWORDS.filter (fun k => hasSub normalizedQuery (lower k))).length
    let words := (wordsOf normalizedQuery).filter (fun w => 2 < w.length)
    let domainConfidence : Q :=
      if 0 < words.length then
        Q.qmin ((Q.ofNat domainKeywordCount).div
          (Q.qmax ((Q.ofNat words.length).mul (Q.norm 3 10)) (Q.ofInt 1))) (Q.ofInt 1)
      else Q.ofInt 0
    ⟨decide (DOMAIN_THRESHOLD.qle domainConfidence) || decide (1 ≤ domainKeywordCount),
      domainConfidence,
      if DOMAIN_THRESHOLD.qle domainConfidence then S "DOMAIN_MATCH" else S "LOW_RELEVANCE"⟩

/-- An entry of the `scores` array built by `detectIntent`. -/
structure ScoredIntent where
  intent : Str
  confidence : Q
  pri : Nat
deriving DecidableEq, Repr

/-- The score `detectIntent` assigns one intent on a normalized query:
0.15 per matched keyword (substring test) plus 0.35 per matched phrase regex,
capped at the intent's base confidence. -/
def intentScore (nq : Str) (p : IntentPattern) : Q :=
  Q.qmin (Q.add
      (Q.mul (Q.ofNat (p.keywords.filter (fun k => hasSub nq (lower k))).length)
        (Q.norm 15 100))
      (Q.mul (Q.ofNat (p.phrases.filter (fun r => patSearch r nq)).length)
        (Q.norm 35 100)))
    p.baseConfidence

/-- Value equality of two fractions (JavaScript `===` on numbers). -/
def Q.qeq (a b : Q) : Prop := a.num * b.den = b.num * a.den

instance (a b : Q) : Decidable (a.qeq b) := inferInstanceAs (Decidable (_ = _))

/-- The sort comparator of `detectIntent` as a strict comes-before test:
higher confidence first; on equal confidence, lower priority value first. -/
def intentBefore (x y : ScoredIntent) : Bool :=
  if x.confidence.qeq y.confidence then decide (x.pri < y.pri)
  else decide (y.confidence.qlt x.confidence)

/-- The scored-intent list of `detectIntent`, in `INTENT_PATTERNS` order. -/
def intentScores (nq : Str) : List ScoredIntent :=
  INTENT_PATTERNS.map (fun p => ⟨p.iname, intentScore nq p, p.pri⟩)

/-- The confidence threshold below which clarification is requested. -/
def CONFIDENCE_THRESHOLD : Q := Q.norm 6 10

/-- The clarification question of the ambiguous-query short circuit. -/
def ambiguousClarification : Str :=
  S "Could you be more specific? For example:\n- \"Why is my score low?\"\n- \"What skills am I missing?\"\n- \"How can I improve my experience section?\""

/-- The clarification question of the `UNKNOWN` branch. -/
def unknownClarification : Str :=
  S "I\x27m not sure what you\x27re asking about. Could you please rephrase your question about your resume or ATS score?"

/-- `generateClarificationQuestion` of `src/ai/intents/index.js`. -/
def generateClarificationQuestion (partialIntent : Str) : Str :=
  if partialIntent = S "SCORE_EXPLANATION" then
    S "Are you asking about your ATS score? Would you like me to explain why your score is what it is?"
  else if partialIntent = S "SKILLS_GAP" then
    S "Are you interested in knowing which skills are missing from your resume?"
  else if partialIntent = S "JD_MATCH" then
    S "Would you like to know how well your resume matches the job description?"
  else if partialIntent = S "EXPERIENCE_IMPROVE" then
    S "Are you looking to improve your work experience section?"
  else if partialIntent = S "KEYWORD_SUGGESTION" then
    S "Would you like suggestions for keywords to add to your resume?"
  else if partialIntent = S "FORMATTING_FEEDBACK" then
    S "Are you asking about your resume\x27s format and structure?"
  else if partialIntent = S "RESUME_REWRITE" then
    S "Would you like me to help rewrite or improve a specific part of your resume?"
  else if partialIntent = S "SECTION_ANALYSIS" then
    S "Which section of your resume would you like me to analyze?"
  else S "Could you please clarify what aspect of your resume you\x27d like help with?"

/-- The result of `detectIntent` (the source's debug-only `matches` array,
which no caller reads, is not modelled; a field absent on a given branch is
`[]` / `none`). -/
structure IntentResult where
  intent : Str
  confidence : Q
  needsClarification : Bool
  possibleIntents : List Str
  clarificationQuestion : Option Str
deriving DecidableEq, Repr

/-- `detectIntent` of `src/ai/intents/index.js`: ambiguous-query short
circuit, per-intent scoring, sort by confidence (descending) then priority
(ascending), the 0.6 confidence threshold, and the clarification / unknown
fallbacks. -/
def detectIntent (query : Str) : IntentResult :=
  let normalizedQuery := trim (lower query)
  if AMBIGUOUS_PATTERNS.any (fun p => patFull p normalizedQuery) then
    ⟨S "CLARIFICATION_NEEDED", Q.ofInt 0, true, [], some ambiguousClarification⟩
  else
    let sorted := insSort intentBefore (intentScores normalizedQuery)
    match sorted with
    | [] => ⟨S "UNKNOWN", Q.ofInt 0, true, [], some unknownClarification⟩
    | topIntent :: _ =>
      if topIntent.confidence.qlt CONFIDENCE_THRESHOLD then
        let partialMatches := sorted.filter (fun s => decide ((Q.ofInt 0).qlt s.confidence))
        match partialMatches with
        | [] => ⟨S "UNKNOWN", Q.ofInt 0, true, [], some unknownClarification⟩
        | first :: _ =>
          ⟨S "CLARIFICATION_NEEDED", topIntent.confidence, true,
            (partialMatches.take 2).map (fun s => s.intent),
            some (generateClarificationQuestion first.intent)⟩
      else ⟨topIntent.intent, topIntent.confidence, false, [], none⟩

/-- The result of `analyzeQuery` (`message` and `domainConfidence` are present
only on the branches that set them). -/
structure QueryAnalysis where
  isValid : Bool
  intent : Str
  confidence : Q
  needsClarification : Bool
  possibleIntents : List Str
  clarificationQuestion : Option Str
  message : Option Str
  domainConfidence : Option Q
deriving DecidableEq, Repr

/-- `analyzeQuery` of `src/ai/intents/index.js`: input validation, domain
check, then intent detection. -/
def analyzeQuery (query : Option Str) : QueryAnalysis :=
  match query with
  | none => ⟨false, S "INVALID_INPUT", Q.ofInt 0, false, [], none,
      some (S "Please enter a valid question."), none⟩
  | some q =>
    if trim q = [] then
      ⟨false, S "INVALID_INPUT", Q.ofInt 0, false, [], none,
        some (S "Please enter a valid question."), none⟩
    else
      let domainResult := validateDomain q
      if !domainResult.isValid then
        ⟨false, S "OUT_OF_SCOPE", Q.ofInt 0, false, [], none,
          some (S "I can only assist with resume analysis and ATS optimization. Please ask about your resume score, missing skills, or how to improve your ATS match."),
          none⟩
      else
        let ir := detectIntent q
        ⟨true, ir.intent, ir.confidence, ir.needsClarification, ir.possibleIntents,
          ir.clarificationQuestion, none, some domainResult.confidence⟩

end ATS
namespace ATS

/-- Cross-multiplied transitivity of fraction `≤` (positive denominators). -/
theorem cross_le_trans {an ad bn bd cn cd : Int} (ha : 0 < ad) (hb : 0 < bd) (hc : 0 < cd)
    (h1 : an * bd ≤ bn * ad) (h2 : bn * cd ≤ cn * bd) : an * cd ≤ cn * ad := by
  have h1c := mul_le_mul_of_nonneg_right h1 hc.le
  have h2a := mul_le_mul_of_nonneg_right h2 ha.le
  have hchain : an * bd * cd ≤ cn * bd * ad := by
    calc an * bd * cd ≤ bn * ad * cd := h1c
    _ = bn * cd * ad := by ring
    _ ≤ cn * bd * ad := h2a
  have hfin : an * cd * bd ≤ cn * ad * bd := by
    calc an * cd * bd = an * bd * cd := by ring
    _ ≤ cn * bd * ad := hchain
    _ = cn * ad * bd := by ring
  exact le_of_mul_le_mul_right hfin hb

/-- Cross-multiplied `≤`/`<` transitivity (positive denominators). -/
theorem cross_le_lt_trans {an ad bn bd cn cd : Int} (ha : 0 < ad) (hb : 0 < bd) (hc : 0 < cd)
    (h1 : an * bd ≤ bn * ad) (h2 : bn * cd < cn * bd) : an * cd < cn * ad := by
  have h1c := mul_le_mul_of_nonneg_right h1 hc.le
  have h2a := mul_lt_mul_of_pos_right h2 ha
  have hchain : an * bd * cd < cn * bd * ad := by
    calc an * bd * cd ≤ bn * ad * cd := h1c
    _ = bn * cd * ad := by ring
    _ < cn * bd * ad := h2a
  have hfin : an * cd * bd < cn * ad * bd := by
    calc an * cd * bd = an * bd * cd := by ring
    _ < cn * bd * ad := hchain
    _ = cn * ad * bd := by ring
  exact lt_of_mul_lt_mul_right hfin hb.le

/-- Value equality is two-sided value `≤` (no positivity needed). -/
theorem qeq_iff_qle (a b : Q) : a.qeq b ↔ a.qle b ∧ b.qle a := by
  unfold Q.qeq Q.qle
  omega

/-- Negated strict comparison is the reverse weak comparison. -/
theorem not_qlt_iff_qle (a b : Q) : ¬ a.qlt b ↔ b.qle a := by
  unfold Q.qlt Q.qle
  omega

/-- The denominator of a normalized fraction with a non-zero input denominator
is positive. -/
theorem qnorm_den_pos (n d : Int) (h : d ≠ 0) : 0 < (Q.norm n d).den := by
  unfold Q.norm
  rw [if_neg h]
  have hd : 0 < d.natAbs := Int.natAbs_pos.mpr h
  have hg : 0 < n.natAbs.gcd d.natAbs := Nat.gcd_pos_of_pos_right _ hd
  have hq : 0 < d.natAbs / (n.natAbs.gcd d.natAbs) :=
    Nat.div_pos (Nat.le_of_dvd hd (Nat.gcd_dvd_right _ _)) hg
  show (0 : Int) < ((d.natAbs / (n.natAbs.gcd d.natAbs) : Nat) : Int)
  exact_mod_cast hq

/-- Products of positive-denominator fractions keep a positive denominator. -/
theorem qmul_den_pos (a b : Q) (ha : 0 < a.den) (hb : 0 < b.den) : 0 < (a.mul b).den :=
  qnorm_den_pos _ _ (mul_pos ha hb).ne'

/-- Sums of positive-denominator fractions keep a positive denominator. -/
theorem qadd_den_pos (a b : Q) (ha : 0 < a.den) (hb : 0 < b.den) : 0 < (a.add b).den :=
  qnorm_den_pos _ _ (mul_pos ha hb).ne'

/-- `Math.min` keeps a positive denominator. -/
theorem qmin_den_pos (a b : Q) (ha : 0 < a.den) (hb : 0 < b.den) : 0 < (a.qmin b).den := by
  unfold Q.qmin
  split <;> assumption

/-- Every intent score has a positive denominator. -/
theorem intentScores_den_pos (nq : Str) : ∀ s ∈ intentScores nq, 0 < s.confidence.den := by
  intro s hs
  obtain ⟨p, hp, hps⟩ := List.mem_map.mp hs
  have hbase : 0 < p.baseConfidence.den := by
    have hall : INTENT_PATTERNS.all (fun p => decide (0 < p.baseConfidence.den)) = true := by
      decide
    simpa using List.all_eq_true.mp hall p hp
  rw [← hps]
  show 0 < (intentScore nq p).den
  unfold intentScore
  refine qmin_den_pos _ _ (qadd_den_pos _ _ ?_ ?_) hbase
  · exact qmul_den_pos _ _ Int.one_pos (by decide)
  · exact qmul_den_pos _ _ Int.one_pos (by decide)

/-- Unfolding of the comparator's `false` case. -/
theorem intentBefore_eq_false_iff (x y : ScoredIntent) :
    intentBefore x y = false ↔
      (x.confidence.qeq y.confidence ∧ ¬(x.pri < y.pri)) ∨
      (¬ x.confidence.qeq y.confidence ∧ ¬(y.confidence.qlt x.confidence)) := by
  by_cases h : x.confidence.qeq y.confidence
  · simp [intentBefore, h]
  · simp [intentBefore, h]

/-- The comparator is asymmetric. -/
theorem intentBefore_asym (a b : ScoredIntent) (h : intentBefore a b = true) :
    intentBefore b a = false := by
  unfold intentBefore at *
  by_cases he : a.confidence.qeq b.confidence
  · have he2 : b.confidence.qeq a.confidence := by
      unfold Q.qeq at *
      omega
    rw [if_pos he] at h
    rw [if_pos he2]
    simp only [decide_eq_true_eq] at h
    simp only [decide_eq_false_iff_not]
    omega
  · have he2 : ¬ b.confidence.qeq a.confidence := by
      unfold Q.qeq at *
      omega
    rw [if_neg he] at h
    rw [if_neg he2]
    simp only [decide_eq_true_eq] at h
    simp only [decide_eq_false_iff_not]
    unfold Q.qlt at *
    omega

/-- The comparator's weak order is transitive on positive-denominator
elements. -/
theorem intentBefore_trans (a b c : ScoredIntent)
    (hA : 0 < a.confidence.den) (hB : 0 < b.confidence.den) (hC : 0 < c.confidence.den)
    (h1 : intentBefore b a = false) (h2 : intentBefore c b = false) :
    intentBefore c a = false := by
  rw [intentBefore_eq_false_iff] at h1 h2 ⊢
  have hba : b.confidence.qle a.confidence := by
    rcases h1 with ⟨he, _⟩ | ⟨_, hlt⟩
    · exact ((qeq_iff_qle _ _).mp he).1
    · exact (not_qlt_iff_qle _ _).mp hlt
  have hcb : c.confidence.qle b.confidence := by
    rcases h2 with ⟨he, _⟩ | ⟨_, hlt⟩
    · exact ((qeq_iff_qle _ _).mp he).1
    · exact (not_qlt_iff_qle _ _).mp hlt
  have hca : c.confidence.qle a.confidence :=
    cross_le_trans hC hB hA hcb hba
  by_cases he : c.confidence.qeq a.confidence
  · left
    refine ⟨he, ?_⟩
    have hac : a.confidence.qle c.confidence := ((qeq_iff_qle _ _).mp he).2
    have hab : a.confidence.qle b.confidence := cross_le_trans hA hC hB hac hcb
    have heba : b.confidence.qeq a.confidence := (qeq_iff_qle _ _).mpr ⟨hba, by
      unfold Q.qle at *
      omega⟩
    have hecb : c.confidence.qeq b.confidence := by
      have hbc : b.confidence.qle c.confidence := cross_le_trans hB hA hC hba hac
      exact (qeq_iff_qle _ _).mpr ⟨hcb, hbc⟩
    rcases h1 with ⟨_, hp1⟩ | ⟨hne, _⟩
    · rcases h2 with ⟨_, hp2⟩ | ⟨hne2, _⟩
      · omega
      · exact absurd hecb hne2
    · exact absurd heba hne
  · right
    exact ⟨he, (not_qlt_iff_qle _ _).mpr hca⟩

end ATS
namespace ATS

/-- `ordInsert` preserves sortedness for a comparator that is asymmetric and
whose weak order is transitive on elements satisfying `P`. -/
theorem ordInsert_pairwiseP {α : Type} (bef : α → α → Bool) (P : α → Prop)
    (hasym : ∀ a b, bef a b = true → bef b a = false)
    (htrans : ∀ a b c, P a → P b → P c → bef b a = false → bef c b = false →
      bef c a = false) :
    ∀ (l : List α) (x : α), P x → (∀ y ∈ l, P y) →
      l.Pairwise (fun u v => bef v u = false) →
      (ordInsert bef x l).Pairwise (fun u v => bef v u = false) := by
  intro l
  induction l with
  | nil =>
    intro x _ _ _
    simp [ordInsert]
  | cons y t ih =>
    intro x hPx hPl hpw
    rcases List.pairwise_cons.mp hpw with ⟨hy, ht⟩
    simp only [ordInsert]
    by_cases hxy : bef x y = true
    · rw [if_pos hxy]
      refine List.pairwise_cons.mpr ⟨?_, hpw⟩
      intro z hz
      rcases List.mem_cons.mp hz with rfl | hz
      · exact hasym x z hxy
      · exact htrans x y z hPx (hPl y (List.mem_cons_self _ _))
          (hPl z (List.mem_cons_of_mem _ hz)) (hasym x y hxy) (hy z hz)
    · rw [if_neg hxy]
      refine List.pairwise_cons.mpr ⟨?_, ih x hPx
        (fun z hz => hPl z (List.mem_cons_of_mem _ hz)) ht⟩
      intro z hz
      rcases List.mem_cons.mp ((ordInsert_perm bef x t).mem_iff.mp hz) with rfl | hz
      · exact Bool.eq_false_iff.mpr hxy
      · exact hy z hz

/-- `insSort` sorts: the output is pairwise ordered by the comparator's weak
order. -/
theorem insSort_pairwiseP {α : Type} (bef : α → α → Bool) (P : α → Prop)
    (hasym : ∀ a b, bef a b = true → bef b a = false)
    (htrans : ∀ a b c, P a → P b → P c → bef b a = false → bef c b = false →
      bef c a = false) :
    ∀ l : List α, (∀ y ∈ l, P y) →
      (insSort bef l).Pairwise (fun u v => bef v u = false) := by
  intro l
  induction l with
  | nil => intro _; simp [insSort]
  | cons x t ih =>
    intro hP
    simp only [insSort]
    refine ordInsert_pairwiseP bef P hasym htrans _ x (hP x (List.mem_cons_self _ _))
      (fun y hy => hP y ((insSort_perm bef t).mem_iff.mp hy |> fun h =>
        List.mem_cons_of_mem _ h)) (ih (fun y hy => hP y (List.mem_cons_of_mem _ hy)))

/-- The head of the sorted list is minimal: no element strictly precedes it. -/
theorem insSort_head_minP {α : Type} (bef : α → α → Bool) (P : α → Prop)
    (hasym : ∀ a b, bef a b = true → bef b a = false)
    (htrans : ∀ a b c, P a → P b → P c → bef b a = false → bef c b = false →
      bef c a = false)
    (l : List α) (hP : ∀ y ∈ l, P y) (h : α) (t : List α)
    (heq : insSort bef l = h :: t) :
    ∀ y ∈ l, y = h ∨ bef y h = false := by
  have hpw := insSort_pairwiseP bef P hasym htrans l hP
  rw [heq] at hpw
  rcases List.pairwise_cons.mp hpw with ⟨hh, _⟩
  intro y hy
  have hmem : y ∈ h :: t := by
    rw [← heq]
    exact (insSort_perm bef l).symm.mem_iff.mp hy
  rcases List.mem_cons.mp hmem with rfl | hmem
  · exact Or.inl rfl
  · exact Or.inr (hh y hmem)

end ATS
namespace ATS

/-- Value `≤` is reflexive. -/
theorem qle_refl (a : Q) : a.qle a := le_refl _

/-- Claim C5 as amended: for every query, `detectIntent` first short-circuits
queries fully matching an ambiguous pattern ("help", "improve", "better",
"fix", "what/how now") to `CLARIFICATION_NEEDED` with confidence 0; otherwise
it scores each intent as 0.15 per matched keyword plus 0.35 per matched
phrase regex capped at the intent's base confidence (`intentScore`), and then:
if some intent reaches the 0.6 threshold, the winner is a highest-scoring
intent with lowest priority among ties and no clarification is requested; if
every score is below 0.6 but some is positive, the result is
`CLARIFICATION_NEEDED` carrying at most two positively-scored candidate
intents; and if no intent scored above 0, the result is `UNKNOWN`. -/
theorem detectIntent_spec (query : Str) :
    (AMBIGUOUS_PATTERNS.any (fun p => patFull p (trim (lower query))) = true →
      detectIntent query
        = ⟨S "CLARIFICATION_NEEDED", Q.ofInt 0, true, [], some ambiguousClarification⟩) ∧
    (AMBIGUOUS_PATTERNS.any (fun p => patFull p (trim (lower query))) = false →
      ((∃ s ∈ intentScores (trim (lower query)),
          CONFIDENCE_THRESHOLD.qle s.confidence) →
        (detectIntent query).needsClarification = false ∧
        ∃ w ∈ intentScores (trim (lower query)),
          (detectIntent query).intent = w.intent ∧
          (detectIntent query).confidence = w.confidence ∧
          (∀ s ∈ intentScores (trim (lower query)), s.confidence.qle w.confidence) ∧
          (∀ s ∈ intentScores (trim (lower query)),
            s.confidence.qeq w.confidence → w.pri ≤ s.pri)) ∧
      ((∀ s ∈ intentScores (trim (lower query)),
          s.confidence.qlt CONFIDENCE_THRESHOLD) →
        (∃ s ∈ intentScores (trim (lower query)), (Q.ofInt 0).qlt s.confidence) →
        (detectIntent query).intent = S "CLARIFICATION_NEEDED" ∧
        (detectIntent query).needsClarification = true ∧
        (detectIntent query).possibleIntents.length ≤ 2 ∧
        ∀ i ∈ (detectIntent query).possibleIntents,
          ∃ s ∈ intentScores (trim (lower query)),
            s.intent = i ∧ (Q.ofInt 0).qlt s.confidence) ∧
      ((∀ s ∈ intentScores (trim (lower query)), ¬ (Q.ofInt 0).qlt s.confidence) →
        detectIntent query
          = ⟨S "UNKNOWN", Q.ofInt 0, true, [], some unknownClarification⟩)) := by
  constructor
  · intro hamb
    simp only [detectIntent, hamb, if_true]
  · intro hamb
    have hPden := intentScores_den_pos (trim (lower query))
    cases hs : insSort intentBefore (intentScores (trim (lower query))) with
    | nil =>
      exfalso
      have hlen := (insSort_perm intentBefore (intentScores (trim (lower query)))).length_eq
      rw [hs] at hlen
      have h8 : (intentScores (trim (lower query))).length = 8 := by
        simp [intentScores, INTENT_PATTERNS]
      rw [h8] at hlen
      cases hlen
    | cons top rest =>
      have htrans := fun a b c (hA : 0 < a.confidence.den) (hB : 0 < b.confidence.den)
        (hC : 0 < c.confidence.den) => intentBefore_trans a b c hA hB hC
      have hmin := insSort_head_minP intentBefore (fun s => 0 < s.confidence.den)
        intentBefore_asym htrans (intentScores (trim (lower query))) hPden top rest hs
      have htopmem : top ∈ intentScores (trim (lower query)) := by
        have : top ∈ insSort intentBefore (intentScores (trim (lower query))) := by
          rw [hs]
          exact List.mem_cons_self _ _
        exact (insSort_perm intentBefore _).mem_iff.mp this
      have htople : ∀ s ∈ intentScores (trim (lower query)),
          s.confidence.qle top.confidence := by
        intro s hsm
        rcases hmin s hsm with rfl | hbef
        · exact qle_refl _
        · rcases (intentBefore_eq_false_iff s top).mp hbef with ⟨he, _⟩ | ⟨_, hlt⟩
          · exact ((qeq_iff_qle _ _).mp he).1
          · exact (not_qlt_iff_qle _ _).mp hlt
      have htoppri : ∀ s ∈ intentScores (trim (lower query)),
          s.confidence.qeq top.confidence → top.pri ≤ s.pri := by
        intro s hsm he
        rcases hmin s hsm with rfl | hbef
        · exact le_refl _
        · rcases (intentBefore_eq_false_iff s top).mp hbef with ⟨_, hp⟩ | ⟨hne, _⟩
          · omega
          · exact absurd he hne
      refine ⟨?_, ?_, ?_⟩
      · rintro ⟨s0, hs0mem, hs0⟩
        have hnotlt : ¬ top.confidence.qlt CONFIDENCE_THRESHOLD := by
          rw [not_qlt_iff_qle]
          exact cross_le_trans (by decide) (hPden s0 hs0mem) (hPden top htopmem)
            hs0 (htople s0 hs0mem)
        have hres : detectIntent query = ⟨top.intent, top.confidence, false, [], none⟩ := by
          simp only [detectIntent, hamb, Bool.false_eq_true, if_false, hs]
          rw [if_neg hnotlt]
        rw [hres]
        exact ⟨rfl, top, htopmem, rfl, rfl, htople, htoppri⟩
      · intro hall hex
        have hlt : top.confidence.qlt CONFIDENCE_THRESHOLD := hall top htopmem
        obtain ⟨s0, hs0mem, hs0⟩ := hex
        have hs0sorted : s0 ∈ top :: rest := by
          rw [← hs]
          exact (insSort_perm intentBefore _).symm.mem_iff.mp hs0mem
        cases hpm : (top :: rest).filter
            (fun s => decide ((Q.ofInt 0).qlt s.confidence)) with
        | nil =>
          exfalso
          have : s0 ∈ (top :: rest).filter
              (fun s => decide ((Q.ofInt 0).qlt s.confidence)) :=
            List.mem_filter.mpr ⟨hs0sorted, by simpa using hs0⟩
          rw [hpm] at this
          simp at this
        | cons first prest =>
          have hres : detectIntent query
              = ⟨S "CLARIFICATION_NEEDED", top.confidence, true,
                  ((first :: prest).take 2).map (fun s => s.intent),
                  some (generateClarificationQuestion first.intent)⟩ := by
            simp only [detectIntent, hamb, Bool.false_eq_true, if_false, hs]
            rw [if_pos hlt]
            simp only [hpm]
          rw [hres]
          refine ⟨rfl, rfl, ?_, ?_⟩
          · simp only [List.length_map, List.length_take]
            exact min_le_left _ _
          · intro i hi
            obtain ⟨s, hsin, hsi⟩ := List.mem_map.mp hi
            have hsfil : s ∈ (top :: rest).filter
                (fun s => decide ((Q.ofInt 0).qlt s.confidence)) := by
              rw [hpm]
              exact List.take_subset 2 _ hsin
            rcases List.mem_filter.mp hsfil with ⟨hssorted, hspos⟩
            refine ⟨s, ?_, hsi, by simpa using hspos⟩
            have : s ∈ insSort intentBefore (intentScores (trim (lower query))) := by
              rw [hs]
              exact hssorted
            exact (insSort_perm intentBefore _).mem_iff.mp this
      · intro hnone
        have htop0 : top.confidence.qle (Q.ofInt 0) :=
          (not_qlt_iff_qle _ _).mp (hnone top htopmem)
        have hlt : top.confidence.qlt CONFIDENCE_THRESHOLD :=
          cross_le_lt_trans (hPden top htopmem) Int.one_pos (by decide) htop0 (by decide)
        have hempty : (top :: rest).filter
            (fun s => decide ((Q.ofInt 0).qlt s.confidence)) = [] := by
          rw [List.filter_eq_nil_iff]
          intro s hssorted
          have hsmem : s ∈ intentScores (trim (lower query)) := by
            have : s ∈ insSort intentBefore (intentScores (trim (lower query))) := by
              rw [hs]
              exact hssorted
            exact (insSort_perm intentBefore _).mem_iff.mp this
          simpa using hnone s hsmem
        simp only [detectIntent, hamb, Bool.false_eq_true, if_false, hs]
        rw [if_pos hlt]
        simp only [hempty]

end ATS
namespace ATS

set_option maxRecDepth 100000 in
/-- Counterexample to C5 as stated: on the query "help" every intent scores 0,
so the claim's rule prescribes `UNKNOWN`, but the ambiguous-query short
circuit returns `CLARIFICATION_NEEDED` (with confidence 0) instead. -/
theorem detectIntent_help_counterexample :
    (∀ p ∈ INTENT_PATTERNS, intentScore (trim (lower (S "help"))) p = Q.ofInt 0) ∧
    (detectIntent (S "help")).intent = S "CLARIFICATION_NEEDED" ∧
    (detectIntent (S "help")).intent ≠ S "UNKNOWN" ∧
    (detectIntent (S "help")).confidence = Q.ofInt 0 := by
  refine ⟨by decide, by decide, by decide, by decide⟩

set_option maxRecDepth 100000 in
/-- Witness for C5's amended claim on the specification's own scenario: the
query "Why is my score low?" is not ambiguous, reaches the threshold, and the
theorem yields a confident `SCORE_EXPLANATION` answer (confidence 0.8, three
keywords at 0.15 plus one phrase at 0.35). -/
theorem detectIntent_spec_witness :
    (detectIntent (S "Why is my score low?")).needsClarification = false ∧
    (detectIntent (S "Why is my score low?")).intent = S "SCORE_EXPLANATION" ∧
    (detectIntent (S "Why is my score low?")).confidence = ⟨4, 5⟩ := by
  have h := ((detectIntent_spec (S "Why is my score low?")).2 (by decide)).1
    (by decide)
  exact ⟨h.1, by decide, by decide⟩

end ATS
namespace ATS

/-- A stored ATS analysis result as the assistant's context builders read it
(`none` models an absent field). -/
structure ATSResult where
  atsScore : Option Q
  skillsScore : Option Q
  experienceScore : Option Q
  educationScore : Option Q
  formatScore : Option Q
  matchedCoreSkills : Option (List Str)
  missingCoreSkills : Option (List Str)
  matchedOptionalSkills : Option (List Str)
  missingOptionalSkills : Option (List Str)
  explanation : Option Str
  feedback : Option Str
  weakVerbs : Option (List Str)
  recommendations : Option (List Str)
  formatIssues : Option (List Str)
deriving DecidableEq, Repr

/-- The empty object `{}` used by `processQuery` when no ATS result exists. -/
def emptyATS : ATSResult :=
  ⟨none, none, none, none, none, none, none, none, none, none, none, none, none, none⟩

/-- JavaScript `x || null` on a number: value 0 coerces to `null`. -/
def numOrNull (o : Option Q) : Option Q :=
  match o with
  | some v => if v.num = 0 then none else some v
  | none => none

/-- JavaScript `x || 0` on a possibly-absent number (0 maps to 0 either way). -/
def numOrZero (o : Option Q) : Q :=
  match o with
  | some v => v
  | none => Q.ofInt 0

/-- JavaScript truthiness of a possibly-absent string (`!!x`). -/
def strTruthy (o : Option Str) : Bool :=
  match o with
  | some s => !s.isEmpty
  | none => false

/-- The intent-specific `Context` variants produced by the context builder. -/
inductive Ctx where
  | err (error : Str)
  | score (overallScore : Q) (sectionScores : List (Str × Q))
      (lowestSection highestSection : Option (Str × Q)) (explanation : Option Str)
  | skillsGap (matchedCoreSkills missingCoreSkills matchedOptionalSkills
      missingOptionalSkills : List Str) (totalCoreSkills totalOptionalSkills : Nat)
      (coreMatchRate : Int)
  | jdMatch (overallMatch : Q) (matchedSkills missingSkills : List Str)
      (matchCount totalRequired : Nat) (feedback : Option Str)
  | experienceCtx (experienceScore : Option Q) (weakVerbs recommendations : List Str)
  | keywordCtx (suggestedKeywords : List (Str × Str)) (totalMissing : Nat)
      (alreadyPresent : List Str)
  | formattingCtx (formatScore : Option Q) (formatIssues recommendations : List Str)
  | rewriteCtx (weakVerbs : List Str) (originalQuery : Str)
  | general (overallScore : Q) (matchedSkillsCount missingSkillsCount : Nat)
      (hasFeedback hasRecommendations : Bool)
deriving DecidableEq, Repr

/-- `calculateMatchRate` of `src/ai/retrieval/contextBuilder.js`. -/
def calculateMatchRate (matched missing : Nat) : Int :=
  if matched + missing = 0 then 0
  else jsRound (((Q.ofNat matched).div (Q.ofNat (matched + missing))).mul (Q.ofInt 100))

/-- `buildScoreContext`: section scores in insertion order, sorted copies for
the lowest/highest extraction (stable ascending sort by value). -/
def buildScoreContext (a : ATSResult) : Ctx :=
  let base : List (Str × Q) :=
    (match a.skillsScore with | some v => [(S "skills", v)] | none => []) ++
    (match a.experienceScore with | some v => [(S "experience", v)] | none => []) ++
    (match a.educationScore with | some v => [(S "education", v)] | none => []) ++
    (match a.formatScore with | some v => [(S "format", v)] | none => [])
  let sorted := insSort (fun x y => decide (x.2.qlt y.2)) base
  Ctx.score (numOrZero a.atsScore) base sorted.head? sorted.getLast?
    (match a.explanation with
      | some e => if e.isEmpty then none else some e
      | none => none)

/-- `buildSkillsGapContext`. -/
def buildSkillsGapContext (a : ATSResult) : Ctx :=
  Ctx.skillsGap (a.matchedCoreSkills.getD []) (a.missingCoreSkills.getD [])
    (a.matchedOptionalSkills.getD []) (a.missingOptionalSkills.getD [])
    ((a.matchedCoreSkills.getD []).length + (a.missingCoreSkills.getD []).length)
    ((a.matchedOptionalSkills.getD []).length + (a.missingOptionalSkills.getD []).length)
    (calculateMatchRate (a.matchedCoreSkills.getD []).length
      (a.missingCoreSkills.getD []).length)

/-- `buildJDMatchContext`. -/
def buildJDMatchContext (a : ATSResult) : Ctx :=
  Ctx.jdMatch (numOrZero a.atsScore) (a.matchedCoreSkills.getD [])
    (a.missingCoreSkills.getD []) (a.matchedCoreSkills.getD []).length
    ((a.matchedCoreSkills.getD []).length + (a.missingCoreSkills.getD []).length)
    a.feedback

/-- `buildExperienceContext`: note `atsResult.experienceScore || null`, which
coerces a zero score to `null`. -/
def buildExperienceContext (a : ATSResult) : Ctx :=
  Ctx.experienceCtx (numOrNull a.experienceScore) (a.weakVerbs.getD [])
    ((a.recommendations.getD []).filter (fun r =>
      hasSub (lower r) (S "experience") || hasSub (lower r) (S "action") ||
        hasSub (lower r) (S "verb")))

/-- `buildKeywordContext`. -/
def buildKeywordContext (a : ATSResult) : Ctx :=
  let prioritizedKeywords :=
    (a.missingCoreSkills.getD []).map (fun k => (k, S "high")) ++
    (a.missingOptionalSkills.getD []).map (fun k => (k, S "medium"))
  Ctx.keywordCtx (prioritizedKeywords.take 10)
    ((a.missingCoreSkills.getD []).length + (a.missingOptionalSkills.getD []).length)
    (a.matchedCoreSkills.getD [])

/-- `buildFormattingContext` (`formatScore || null`). -/
def buildFormattingContext (a : ATSResult) : Ctx :=
  Ctx.formattingCtx (numOrNull a.formatScore) (a.formatIssues.getD [])
    ((a.recommendations.getD []).filter (fun r =>
      hasSub (lower r) (S "format") || hasSub (lower r) (S "structure") ||
        hasSub (lower r) (S "section") || hasSub (lower r) (S "length")))

/-- `buildRewriteContext` (its constant `needsLLM: true` is implied by the
variant). -/
def buildRewriteContext (a : ATSResult) (userQuery : Str) : Ctx :=
  Ctx.rewriteCtx (a.weakVerbs.getD []) userQuery

/-- `buildGeneralContext`. -/
def buildGeneralContext (a : ATSResult) : Ctx :=
  Ctx.general (numOrZero a.atsScore) (a.matchedCoreSkills.getD []).length
    (a.missingCoreSkills.getD []).length (strTruthy a.feedback)
    (decide (0 < (a.recommendations.getD []).length))

/-- `buildContext` of `src/ai/retrieval/contextBuilder.js`: `none` models a
missing / non-object ATS result. -/
def buildContext (atsResult : Option ATSResult) (intent : Str) (query : Str) : Ctx :=
  match atsResult with
  | none => Ctx.err (S "No analysis data available. Please run an ATS scan first.")
  | some a =>
    if intent = S "SCORE_EXPLANATION" then buildScoreContext a
    else if intent = S "SKILLS_GAP" then buildSkillsGapContext a
    else if intent = S "JD_MATCH" then buildJDMatchContext a
    else if intent = S "EXPERIENCE_IMPROVE" then buildExperienceContext a
    else if intent = S "KEYWORD_SUGGESTION" then buildKeywordContext a
    else if intent = S "FORMATTING_FEEDBACK" then buildFormattingContext a
    else if intent = S "RESUME_REWRITE" then buildRewriteContext a query
    else buildGeneralContext a

end ATS
namespace ATS

/-- One entry of the experience decision's `issues` array (fields absent on a
given issue shape are `[]` / `none`). -/
structure ExpIssue where
  itype : Str
  severity : Str
  details : List Str
  score : Option Q
  fix : Str
deriving DecidableEq, Repr

/-- The intent-specific `Decision` variants of the decision engine. -/
inductive Decision where
  | scoreD (category : Str) (primaryIssue : Option (Str × Q × Str × Str))
      (sectionBreakdown : List (Str × Q)) (actionItems : List Str)
  | skillsGapD (primaryFocus secondaryFocus : List Str)
      (prioritizedSkills : List (Str × Str × Int × Str)) (potentialScoreGain : Int)
      (urgency : Str)
  | jdMatchD (fitLevel : Str) (matchPercentage : Int) (matchedCount totalRequired : Nat)
      (topMatches topGaps : List Str) (shouldApply : Bool) (improvementNeeded : List Str)
  | experienceD (primaryIssues allIssues : List ExpIssue) (actionVerbs : List Str)
      (recommendations : List Str)
  | keywordD (mustAdd niceToHave alreadyIncluded : List Str) (totalMissing : Nat)
      (estimatedImpact : Str)
  | formattingD (formatScore : Option Q) (issues : List (Str × Str × Str))
      (recommendations generalTips : List Str)
  | rewriteD (weakVerbs guidelines : List Str)
  | errorD (message : Str)
  | generalD (message : Str)
deriving DecidableEq, Repr

/-- `getScoreRecommendation` of `src/ai/engine/decisionEngine.js`. -/
def getScoreRecommendation (sectionName : Str) (sc : Q) : Str :=
  if sectionName = S "skills" then
    if sc.qlt (Q.ofInt 50) then S "Add more relevant skills from the job description"
    else S "Continue adding industry-specific keywords"
  else if sectionName = S "experience" then
    if sc.qlt (Q.ofInt 50) then S "Use stronger action verbs and quantify achievements"
    else S "Add more measurable outcomes to your bullet points"
  else if sectionName = S "education" then
    if sc.qlt (Q.ofInt 50) then S "Include relevant coursework or certifications"
    else S "Add any professional certifications or training"
  else if sectionName = S "format" then
    if sc.qlt (Q.ofInt 50) then S "Simplify your resume format for better ATS parsing"
    else S "Ensure consistent formatting throughout"
  else S "Focus on improving this section with relevant content"

/-- `generateScoreActionItems`. -/
def generateScoreActionItems (overallScore : Q) (lowestSection : Option (Str × Q))
    (sectionScores : List (Str × Q)) : List Str :=
  ((if overallScore.qlt (Q.ofInt 60) then [S "Focus on adding missing core skills"] else []) ++
   (match lowestSection with
    | some ls => if ls.2.qlt (Q.ofInt 50) then
        [S "Improve your " ++ ls.1 ++ S " section"] else []
    | none => []) ++
   (if sectionScores.isEmpty then
      [S "Run a complete ATS analysis for detailed feedback"] else [])).take 3

/-- `decideScoreExplanation`. -/
def decideScoreExplanation (overallScore : Q) (sectionScores : List (Str × Q))
    (lowestSection _highestSection : Option (Str × Q)) : Decision :=
  let category :=
    if (Q.ofInt 80).qle overallScore then S "EXCELLENT"
    else if (Q.ofInt 60).qle overallScore then S "GOOD"
    else if (Q.ofInt 40).qle overallScore then S "MODERATE"
    else S "LOW"
  let primaryIssue :=
    match lowestSection with
    | some ls => some (ls.1, ls.2, S "high", getScoreRecommendation ls.1 ls.2)
    | none => none
  Decision.scoreD category primaryIssue sectionScores
    (generateScoreActionItems overallScore lowestSection sectionScores)

/-- `decideSkillsGap` (impact weights 10 and 3; urgency HIGH above 3 missing
core skills, MEDIUM for 1–3, LOW for 0). -/
def decideSkillsGap (missingCoreSkills missingOptionalSkills : List Str)
    (coreMatchRate : Int) : Decision :=
  let prioritizedSkills :=
    (missingCoreSkills.take 5).map (fun skill =>
      (skill, S "HIGH", (10 : Int),
        S "Add \"" ++ skill ++ S "\" to your resume - this is a core requirement.")) ++
    (missingOptionalSkills.take 3).map (fun skill =>
      (skill, S "MEDIUM", (3 : Int),
        S "Consider adding \"" ++ skill ++ S "\" to stand out from other candidates."))
  let potentialGain : Int :=
    min (missingCoreSkills.length * 5 + missingOptionalSkills.length * 2)
      (100 - coreMatchRate)
  Decision.skillsGapD (missingCoreSkills.take 3) (missingOptionalSkills.take 2)
    prioritizedSkills potentialGain
    (if 3 < missingCoreSkills.length then S "HIGH"
     else if 0 < missingCoreSkills.length then S "MEDIUM" else S "LOW")

/-- `decideJDMatch` (fit bands 80/60/40, apply advice at 50%). -/
def decideJDMatch (_overallMatch : Q) (matchedSkills missingSkills : List Str)
    (matchCount totalRequired : Nat) : Decision :=
  let matchPercentage : Int :=
    if 0 < totalRequired then
      jsRound (((Q.ofNat matchCount).div (Q.ofNat totalRequired)).mul (Q.ofInt 100))
    else 0
  let fitLevel :=
    if 80 ≤ matchPercentage then S "STRONG_FIT"
    else if 60 ≤ matchPercentage then S "GOOD_FIT"
    else if 40 ≤ matchPercentage then S "PARTIAL_FIT"
    else S "WEAK_FIT"
  Decision.jdMatchD fitLevel matchPercentage matchCount totalRequired
    (matchedSkills.take 5) (missingSkills.take 5) (decide (50 ≤ matchPercentage))
    (missingSkills.take 3)

/-- The severity rank used by the experience decision's sort. -/
def sevOrd (s : Str) : Int :=
  if s = S "HIGH" then 0 else if s = S "MEDIUM" then 1 else if s = S "LOW" then 2 else 3

/-- The severity comparator as a strict comes-before test. -/
def sevBefore (a b : ExpIssue) : Bool := decide (sevOrd a.severity < sevOrd b.severity)

/-- `decideExperienceImprove`: a weak-verb issue when weak verbs exist (HIGH
above three of them), a `LOW_EXPERIENCE_SCORE` issue only when the context's
`experienceScore` is non-null and below 60, sorted by severity. -/
def decideExperienceImprove (experienceScore : Option Q)
    (weakVerbs recommendations : List Str) : Decision :=
  let issues :=
    (if 0 < weakVerbs.length then
      [(⟨S "WEAK_VERBS", if 3 < weakVerbs.length then S "HIGH" else S "MEDIUM",
        weakVerbs.take 5, none,
        S "Replace weak verbs with strong action verbs like \"Led\", \"Developed\", \"Achieved\", \"Implemented\""⟩ : ExpIssue)]
     else []) ++
    (match experienceScore with
     | some v =>
       if v.qlt (Q.ofInt 60) then
         [(⟨S "LOW_EXPERIENCE_SCORE", S "HIGH", [], some v,
           S "Quantify achievements with numbers and metrics"⟩ : ExpIssue)]
       else []
     | none => [])
  let sorted := insSort sevBefore issues
  Decision.experienceD (sorted.take 2) sorted
    [S "Led", S "Developed", S "Implemented", S "Achieved", S "Increased", S "Reduced",
      S "Managed", S "Created"]
    recommendations

/-- `decideKeywordSuggestion`. -/
def decideKeywordSuggestion (suggestedKeywords : List (Str × Str)) (totalMissing : Nat)
    (alreadyPresent : List Str) : Decision :=
  let highPriority := (suggestedKeywords.filter (fun k => k.2 = S "high")).take 5
  let mediumPriority := (suggestedKeywords.filter (fun k => k.2 = S "medium")).take 3
  Decision.keywordD (highPriority.map (fun k => k.1)) (mediumPriority.map (fun k => k.1))
    (alreadyPresent.take 5) totalMissing
    (if 3 < highPriority.length then S "SIGNIFICANT" else S "MODERATE")

/-- `decideFormattingFeedback`. -/
def decideFormattingFeedback (formatScore : Option Q)
    (formatIssues recommendations : List Str) : Decision :=
  Decision.formattingD formatScore
    (formatIssues.map (fun issue => (S "FORMAT_ISSUE", issue, S "MEDIUM")))
    (recommendations.take 3)
    [S "Use consistent formatting throughout", S "Keep resume to 1-2 pages",
      S "Use standard section headers",
      S "Avoid tables and graphics for ATS compatibility"]

/-- `decideResumeRewrite` (`requiresLLM: true` is implied by the variant). -/
def decideResumeRewrite (weakVerbs : List Str) : Decision :=
  Decision.rewriteD weakVerbs
    [S "Start bullets with strong action verbs", S "Quantify achievements when possible",
      S "Focus on impact and results", S "Use industry-specific keywords"]

/-- The dispatcher `decide` of `src/ai/engine/decisionEngine.js` (renamed to
avoid the Lean tactic of the same name).  An intent/context shape mismatch
never occurs in the pipeline (the context is built for the same intent); on
such dead branches the source would raise a `TypeError`, modelled by the
default decision. -/
def decideFn (ctx : Ctx) (intent : Str) : Decision :=
  match ctx with
  | .err e => Decision.errorD e
  | _ =>
    if intent = S "SCORE_EXPLANATION" then
      match ctx with
      | .score overall sections lowest highest _ =>
        decideScoreExplanation overall sections lowest highest
      | _ => Decision.generalD
          (S "Please ask a specific question about your resume or ATS score.")
    else if intent = S "SKILLS_GAP" then
      match ctx with
      | .skillsGap _ missingCore _ missingOpt _ _ rate =>
        decideSkillsGap missingCore missingOpt rate
      | _ => Decision.generalD
          (S "Please ask a specific question about your resume or ATS score.")
    else if intent = S "JD_MATCH" then
      match ctx with
      | .jdMatch overall matched missing matchCount totalRequired _ =>
        decideJDMatch overall matched missing matchCount totalRequired
      | _ => Decision.generalD
          (S "Please ask a specific question about your resume or ATS score.")
    else if intent = S "EXPERIENCE_IMPROVE" then
      match ctx with
      | .experienceCtx experienceScore weakVerbs recommendations =>
        decideExperienceImprove experienceScore weakVerbs recommendations
      | _ => Decision.generalD
          (S "Please ask a specific question about your resume or ATS score.")
    else if intent = S "KEYWORD_SUGGESTION" then
      match ctx with
      | .keywordCtx suggested totalMissing already =>
        decideKeywordSuggestion suggested totalMissing already
      | _ => Decision.generalD
          (S "Please ask a specific question about your resume or ATS score.")
    else if intent = S "FORMATTING_FEEDBACK" then
      match ctx with
      | .formattingCtx formatScore formatIssues recommendations =>
        decideFormattingFeedback formatScore formatIssues recommendations
      | _ => Decision.generalD
          (S "Please ask a specific question about your resume or ATS score.")
    else if intent = S "RESUME_REWRITE" then
      match ctx with
      | .rewriteCtx weakVerbs _ => decideResumeRewrite weakVerbs
      | _ => Decision.generalD
          (S "Please ask a specific question about your resume or ATS score.")
    else Decision.generalD
      (S "Please ask a specific question about your resume or ATS score.")

end ATS
namespace ATS

/-- `requiresATSData` of `src/ai/assistant.js`. -/
def requiresATSData (intent : Str) : Bool :=
  intent = S "SCORE_EXPLANATION" || intent = S "SKILLS_GAP" || intent = S "JD_MATCH" ||
    intent = S "EXPERIENCE_IMPROVE" || intent = S "KEYWORD_SUGGESTION" ||
    intent = S "FORMATTING_FEEDBACK"

/-- Whether a decision carries `requiresLLM: true` (only the rewrite decision
sets the flag). -/
def requiresLLMOf (d : Decision) : Bool :=
  match d with
  | .rewriteD _ _ => true
  | _ => false

/-- The `type` string of a context object. -/
def ctxType (c : Ctx) : Str :=
  match c with
  | .err _ => S "ERROR"
  | .score _ _ _ _ _ => S "SCORE_EXPLANATION"
  | .skillsGap _ _ _ _ _ _ _ => S "SKILLS_GAP"
  | .jdMatch _ _ _ _ _ _ => S "JD_MATCH"
  | .experienceCtx _ _ _ => S "EXPERIENCE_IMPROVE"
  | .keywordCtx _ _ _ => S "KEYWORD_SUGGESTION"
  | .formattingCtx _ _ _ => S "FORMATTING_FEEDBACK"
  | .rewriteCtx _ _ => S "RESUME_REWRITE"
  | .general _ _ _ _ _ => S "GENERAL"

/-- `context.overallScore || null` as read by `processQuery` (only the score
and general contexts carry an `overallScore`; a zero score coerces to null). -/
def ctxOverallScore (c : Ctx) : Option Q :=
  match c with
  | .score overallScore _ _ _ _ => numOrNull (some overallScore)
  | .general overallScore _ _ _ _ => numOrNull (some overallScore)
  | _ => none

/-- The assistant response record of `processQuery` (a field absent on a
given branch is `none`). -/
structure PResponse where
  success : Bool
  rtype : Str
  message : Str
  intent : Option Str
  confidence : Option Q
  possibleIntents : Option (List Str)
  suggestions : Option (List Str)
  needsLLM : Option Bool
  context : Option (Str × Option Q)
deriving DecidableEq, Repr

/-- The constant `DOMAIN_REFUSAL` response of `src/ai/assistant.js`. -/
def DOMAIN_REFUSAL : PResponse :=
  ⟨false, S "DOMAIN_REFUSAL",
    S "I can only assist with resume analysis and ATS optimization.\n\n**Try asking:**\n• \"Why is my score low?\"\n• \"What skills am I missing?\"\n• \"How can I improve my experience section?\"",
    none, none, none,
    some [S "Why is my score low?", S "What skills am I missing?",
      S "How can I improve my experience section?"],
    none, none⟩

/-- `processQuery` of `src/ai/assistant.js`, parameterized by the template
renderer `gen` (`generateResponse` of the response generator, whose text is
outside this development's scope).  `none` for the query models a null or
non-string argument; `none` for the ATS result models the `null` default. -/
def processQuery (gen : Str → Ctx → Decision → Str) (query : Option Str)
    (atsResult : Option ATSResult) : PResponse :=
  match query with
  | none => ⟨false, S "ERROR", S "Please enter a valid question.",
      none, none, none, none, none, none⟩
  | some q =>
    if q = [] then
      ⟨false, S "ERROR", S "Please enter a valid question.",
        none, none, none, none, none, none⟩
    else
      let trimmedQuery := trim q
      if trimmedQuery.length = 0 then
        ⟨false, S "ERROR", S "Please enter a question about your resume or ATS score.",
          none, none, none, none, none, none⟩
      else
        let intentResult := analyzeQuery (some trimmedQuery)
        if !intentResult.isValid then DOMAIN_REFUSAL
        else if intentResult.needsClarification then
          ⟨true, S "CLARIFICATION", intentResult.clarificationQuestion.getD [],
            some intentResult.intent, some intentResult.confidence,
            some intentResult.possibleIntents, none, none, none⟩
        else if atsResult.isNone && requiresATSData intentResult.intent then
          ⟨false, S "MISSING_DATA",
            S "I need your ATS analysis results to answer this question. Please upload your resume and run an analysis first.",
            some intentResult.intent, none, none, none, none, none⟩
        else
          let context := buildContext (some (atsResult.getD emptyATS))
            intentResult.intent trimmedQuery
          match context with
          | .err e => ⟨false, S "ERROR", e, none, none, none, none, none, none⟩
          | c =>
            let decision := decideFn c intentResult.intent
            ⟨true, S "RESPONSE", gen intentResult.intent c decision,
              some intentResult.intent, some intentResult.confidence, none, none,
              some (intentResult.intent = S "RESUME_REWRITE" && requiresLLMOf decision),
              some (ctxType c, ctxOverallScore c)⟩

end ATS
namespace ATS

/-- The `allIssues` field of an experience decision. -/
def expAllIssues (d : Decision) : List ExpIssue :=
  match d with
  | .experienceD _ allIssues _ _ => allIssues
  | _ => []

/-- On the experience intent, `buildContext` with a present result defers to
`buildExperienceContext`. -/
theorem buildContext_experience (a : ATSResult) (q : Str) :
    buildContext (some a) (S "EXPERIENCE_IMPROVE") q = buildExperienceContext a := by
  simp only [buildContext]
  rw [if_neg (by decide), if_neg (by decide), if_neg (by decide)]
  simp

/-- On the experience intent, the decision engine defers to
`decideExperienceImprove`. -/
theorem decideFn_experience (e : Option Q) (wv rec : List Str) :
    decideFn (Ctx.experienceCtx e wv rec) (S "EXPERIENCE_IMPROVE") =
      decideExperienceImprove e wv rec := by
  simp only [decideFn]
  rw [if_neg (by decide), if_neg (by decide), if_neg (by decide)]
  simp

/-- C10: for every stored ATS result whose `experienceScore` is present and
equal to 0, `buildContext` on the `EXPERIENCE_IMPROVE` intent coerces the
context's `experienceScore` to null (the `|| null` falsy coercion), making the
context identical to the one built from a result with the score absent, and
the decision engine's `LOW_EXPERIENCE_SCORE` issue — which fires only for a
non-null score below 60 — is never raised for the zero score. -/
theorem buildContext_experience_zero_spec (a b : ATSResult) (v : Q) (q : Str)
    (hv : a.experienceScore = some v) (h0 : v.num = 0)
    (hb : b.experienceScore = none)
    (hw : a.weakVerbs = b.weakVerbs) (hr : a.recommendations = b.recommendations) :
    buildContext (some a) (S "EXPERIENCE_IMPROVE") q =
      buildContext (some b) (S "EXPERIENCE_IMPROVE") q ∧
    (∃ wv rec, buildContext (some a) (S "EXPERIENCE_IMPROVE") q =
      Ctx.experienceCtx none wv rec) ∧
    ∀ i ∈ expAllIssues (decideFn (buildContext (some a) (S "EXPERIENCE_IMPROVE") q)
      (S "EXPERIENCE_IMPROVE")), i.itype ≠ S "LOW_EXPERIENCE_SCORE" := by
  have hctx : buildContext (some a) (S "EXPERIENCE_IMPROVE") q =
      Ctx.experienceCtx none (a.weakVerbs.getD [])
        ((a.recommendations.getD []).filter (fun r =>
          hasSub (lower r) (S "experience") || hasSub (lower r) (S "action") ||
            hasSub (lower r) (S "verb"))) := by
    rw [buildContext_experience]
    simp [buildExperienceContext, hv, numOrNull, h0]
  refine ⟨?_, ⟨_, _, hctx⟩, ?_⟩
  · rw [hctx, buildContext_experience]
    simp [buildExperienceContext, hb, numOrNull, hw, hr]
  · intro i hi
    rw [hctx, decideFn_experience] at hi
    simp only [decideExperienceImprove, expAllIssues, List.append_nil] at hi
    have hmem := (insSort_perm sevBefore _).mem_iff.mp hi
    by_cases hwv : 0 < (a.weakVerbs.getD []).length
    · simp only [if_pos hwv, List.mem_singleton] at hmem
      rw [hmem]
      by_cases h3 : 3 < (a.weakVerbs.getD []).length
      · simp only [if_pos h3]
        decide
      · simp only [if_neg h3]
        decide
    · simp only [if_neg hwv, List.not_mem_nil] at hmem

/-- C10 witness inputs: a result with a zero experience score. -/
def expZeroA : ATSResult :=
  ⟨none, none, some (Q.ofInt 0), none, none, none, none, none, none, none, none,
    some [S "helped", S "assisted", S "worked on", S "did"], some [], none⟩

/-- C10 witness inputs: the same result with the experience score absent. -/
def expZeroB : ATSResult :=
  ⟨none, none, none, none, none, none, none, none, none, none, none,
    some [S "helped", S "assisted", S "worked on", S "did"], some [], none⟩

/-- C10 witness: at a concrete result with `experienceScore = 0` and four weak
verbs, the experience context equals the one for an absent score, carries a
null score, and no `LOW_EXPERIENCE_SCORE` issue is raised. -/
theorem buildContext_experience_zero_spec_witness :
    buildContext (some expZeroA) (S "EXPERIENCE_IMPROVE") [] =
      buildContext (some expZeroB) (S "EXPERIENCE_IMPROVE") [] ∧
    (∃ wv rec, buildContext (some expZeroA) (S "EXPERIENCE_IMPROVE") [] =
      Ctx.experienceCtx none wv rec) ∧
    ∀ i ∈ expAllIssues (decideFn (buildContext (some expZeroA) (S "EXPERIENCE_IMPROVE") [])
      (S "EXPERIENCE_IMPROVE")), i.itype ≠ S "LOW_EXPERIENCE_SCORE" :=
  buildContext_experience_zero_spec expZeroA expZeroB (Q.ofInt 0) [] rfl rfl rfl rfl rfl

end ATS
namespace ATS

/-- Every clarification question template is a nonempty string. -/
theorem generateClarificationQuestion_ne_nil (p : Str) :
    generateClarificationQuestion p ≠ [] := by
  simp only [generateClarificationQuestion]
  split_ifs <;> decide

/-- Whenever `detectIntent` asks for clarification, it supplies a nonempty
clarification question. -/
theorem detectIntent_clar (q : Str) :
    (detectIntent q).needsClarification = false ∨
      (detectIntent q).clarificationQuestion.getD [] ≠ [] := by
  simp only [detectIntent]
  split
  · right; decide
  · split
    · right; decide
    · split
      · split
        · right; decide
        · right
          exact generateClarificationQuestion_ne_nil _
      · left; rfl

/-- Whenever `analyzeQuery` asks for clarification, it supplies a nonempty
clarification question. -/
theorem analyzeQuery_clar (oq : Option Str) :
    (analyzeQuery oq).needsClarification = false ∨
      (analyzeQuery oq).clarificationQuestion.getD [] ≠ [] := by
  cases oq with
  | none => left; rfl
  | some q =>
    simp only [analyzeQuery]
    split
    · left; rfl
    · split
      · left; rfl
      · exact detectIntent_clar q

/-- `buildContext` never produces the error context for a present result. -/
theorem buildContext_some_ne_err (a : ATSResult) (intent q e : Str) :
    buildContext (some a) intent q ≠ Ctx.err e := by
  simp only [buildContext]
  split_ifs <;>
    simp [buildScoreContext, buildSkillsGapContext, buildJDMatchContext,
      buildExperienceContext, buildKeywordContext, buildFormattingContext,
      buildRewriteContext, buildGeneralContext]

end ATS
namespace ATS

/-- C3: every outcome of `processQuery` is a structured response distinguished
by its `type` field (ERROR, DOMAIN_REFUSAL, CLARIFICATION, MISSING_DATA or
RESPONSE) and never an exception; the invalid-input, out-of-scope and
missing-data outcomes carry `success: false` and a nonempty user-facing
message.  Corrected from the claim as stated: the clarification-needed outcome
is returned with `success: true` (not `false`), though still with a nonempty
message. -/
theorem processQuery_spec (gen : Str → Ctx → Decision → Str) (query : Option Str)
    (ats : Option ATSResult) (r : PResponse) (hr : processQuery gen query ats = r) :
    (r.rtype = S "ERROR" ∨ r.rtype = S "DOMAIN_REFUSAL" ∨ r.rtype = S "CLARIFICATION" ∨
      r.rtype = S "MISSING_DATA" ∨ r.rtype = S "RESPONSE") ∧
    (r.rtype = S "ERROR" → r.success = false ∧ r.message ≠ []) ∧
    (r.rtype = S "DOMAIN_REFUSAL" → r.success = false ∧ r.message ≠ []) ∧
    (r.rtype = S "MISSING_DATA" → r.success = false ∧ r.message ≠ []) ∧
    (r.rtype = S "CLARIFICATION" → r.success = true ∧ r.message ≠ []) := by
  subst hr
  cases query with
  | none => simp only [processQuery]; decide
  | some q =>
    simp only [processQuery]
    split
    · decide
    · split
      · decide
      · split
        · decide
        · split
          · rename_i hcl
            refine ⟨Or.inr (Or.inr (Or.inl rfl)), ?_, ?_, ?_, ?_⟩
            · intro h
              exact absurd (show S "CLARIFICATION" = S "ERROR" from h) (by decide)
            · intro h
              exact absurd (show S "CLARIFICATION" = S "DOMAIN_REFUSAL" from h) (by decide)
            · intro h
              exact absurd (show S "CLARIFICATION" = S "MISSING_DATA" from h) (by decide)
            · intro _
              refine ⟨rfl, ?_⟩
              rcases analyzeQuery_clar (some (trim q)) with h | h
              · rw [h] at hcl
                exact absurd hcl (by decide)
              · exact h
          · split
            · refine ⟨Or.inr (Or.inr (Or.inr (Or.inl rfl))), ?_, ?_, ?_, ?_⟩
              · intro h
                exact absurd (show S "MISSING_DATA" = S "ERROR" from h) (by decide)
              · intro h
                exact absurd (show S "MISSING_DATA" = S "DOMAIN_REFUSAL" from h) (by decide)
              · intro _
                exact ⟨rfl,
                  show S "I need your ATS analysis results to answer this question. Please upload your resume and run an analysis first." ≠ []
                    from by decide⟩
              · intro h
                exact absurd (show S "MISSING_DATA" = S "CLARIFICATION" from h) (by decide)
            · split
              · rename_i e heq
                exact absurd heq (buildContext_some_ne_err _ _ _ _)
              · refine ⟨Or.inr (Or.inr (Or.inr (Or.inr rfl))), ?_, ?_, ?_, ?_⟩
                · intro h
                  exact absurd (show S "RESPONSE" = S "ERROR" from h) (by decide)
                · intro h
                  exact absurd (show S "RESPONSE" = S "DOMAIN_REFUSAL" from h) (by decide)
                · intro h
                  exact absurd (show S "RESPONSE" = S "MISSING_DATA" from h) (by decide)
                · intro h
                  exact absurd (show S "RESPONSE" = S "CLARIFICATION" from h) (by decide)

set_option maxRecDepth 200000 in
/-- C3 counterexample to the claim as stated: on the in-domain but ambiguous
query "improve" with no ATS result, `processQuery` returns the
clarification-needed variant with `success: true`, not `success: false`. -/
theorem processQuery_clarification_success :
    (processQuery (fun _ _ _ => []) (some (S "improve")) none).success = true ∧
    (processQuery (fun _ _ _ => []) (some (S "improve")) none).rtype =
      S "CLARIFICATION" := by
  decide

/-- C3 witness: the theorem instantiated at a null query, whose outcome is the
invalid-input ERROR variant. -/
theorem processQuery_spec_witness :
    ((processQuery (fun _ _ _ => []) none none).rtype = S "ERROR" ∨
      (processQuery (fun _ _ _ => []) none none).rtype = S "DOMAIN_REFUSAL" ∨
      (processQuery (fun _ _ _ => []) none none).rtype = S "CLARIFICATION" ∨
      (processQuery (fun _ _ _ => []) none none).rtype = S "MISSING_DATA" ∨
      (processQuery (fun _ _ _ => []) none none).rtype = S "RESPONSE") ∧
    ((processQuery (fun _ _ _ => []) none none).rtype = S "ERROR" →
      (processQuery (fun _ _ _ => []) none none).success = false ∧
      (processQuery (fun _ _ _ => []) none none).message ≠ []) ∧
    ((processQuery (fun _ _ _ => []) none none).rtype = S "DOMAIN_REFUSAL" →
      (processQuery (fun _ _ _ => []) none none).success = false ∧
      (processQuery (fun _ _ _ => []) none none).message ≠ []) ∧
    ((processQuery (fun _ _ _ => []) none none).rtype = S "MISSING_DATA" →
      (processQuery (fun _ _ _ => []) none none).success = false ∧
      (processQuery (fun _ _ _ => []) none none).message ≠ []) ∧
    ((processQuery (fun _ _ _ => []) none none).rtype = S "CLARIFICATION" →
      (processQuery (fun _ _ _ => []) none none).success = true ∧
      (processQuery (fun _ _ _ => []) none none).message ≠ []) :=
  processQuery_spec (fun _ _ _ => []) none none
    (processQuery (fun _ _ _ => []) none none) rfl

end ATS
